import Mathlib

/-!
# Verification of the tanukimcp-scrape Session & Data Processing Engine

A shallow embedding, in Lean 4, of the session registry (`SessionManager`,
`src/unnamed/part_000`) and the data pipeline (`DataPipeline`,
`src/src/core/context.ts`) of the tanukimcp-scrape repository, together with
theorems settling the specification's claims about them.

JavaScript runtime values are modelled by the inductive type `Value`
(numbers as rationals), field maps (`Record<string, any>`) as ordered
association lists, and wall-clock time (`Date`) as natural-number
milliseconds.  External JavaScript facilities with no algorithmic content in
the repository — the regex engine, `Date.parse`, `new URL`, `parseFloat`,
`Math.sqrt`, float formatting of non-integers, `process.memoryUsage` — are
parameters (`JsEnv`, explicit arguments), so every theorem quantifies over
their behaviour unless it instantiates them concretely.
-/

namespace Scrape

/-- A JavaScript runtime value, as manipulated by the pipeline.
`undefined` models JavaScript `undefined`, kept distinct from `null` because the
source distinguishes them (`value !== null && value !== undefined`).
Numbers are modelled as rationals (JS floats; NaN/Infinity do not arise in
the verified paths, see `jsToNumber`). -/
inductive Value where
  | null
  | undefined
  | bool (b : Bool)
  | num (q : ℚ)
  | str (s : String)
  | arr (elems : List Value)
  | obj (fields : List (String × Value))
deriving Repr, BEq

/-- `Record<string, any>`: an object as an insertion-ordered association list. -/
abbrev FieldMap := List (String × Value)

/-- Model of JavaScript `\s` (whitespace class), restricted to the ASCII
whitespace characters; the verified claims exercise no exotic whitespace. -/
def jsIsSpace (c : Char) : Bool :=
  c == ' ' || c == '\t' || c == '\n' || c == '\r' || c == '\x0b' || c == '\x0c'

/-- JavaScript truthiness of a value. -/
def jsTruthy : Value → Bool
  | .null => false
  | .undefined => false
  | .bool b => b
  | .num q => q != 0
  | .str s => s != ""
  | .arr _ => true
  | .obj _ => true

/-- The check `value !== null && value !== undefined && value !== ''`, used
for completeness and required-field tests throughout the pipeline. -/
def hasValue : Value → Bool
  | .null => false
  | .undefined => false
  | .str "" => false
  | _ => true

/-- JavaScript strict equality `===` on values.  Structural on primitives,
exactly as in JS; on arrays/objects JS compares references, which for the
distinct values appearing in rule configurations versus record data is
`false`, so distinct-reference comparison is modelled by the catch-all. -/
def jsStrictEq : Value → Value → Bool
  | .null, .null => true
  | .undefined, .undefined => true
  | .bool a, .bool b => a == b
  | .num a, .num b => a == b
  | .str a, .str b => a == b
  | _, _ => false

/-- `String()` of a JS number, faithful on integers (the only numbers the
verified claims stringify); non-integral rationals are printed as fractions,
standing in for JS float formatting. -/
def jsNumToString (q : ℚ) : String :=
  if q.den == 1 then toString q.num else toString q.num ++ "/" ++ toString q.den

mutual

/-- `String()` coercion of a value.  Arrays stringify as comma-joined
elements with `null`/`undefined` elements becoming empty, objects as
`[object Object]`, as in JavaScript. -/
def jsToString : Value → String
  | .null => "null"
  | .undefined => "undefined"
  | .bool b => cond b "true" "false"
  | .num q => jsNumToString q
  | .str s => s
  | .arr es => String.intercalate "," (jsToStringElems es)
  | .obj _ => "[object Object]"

/-- The element strings of `Array.prototype.toString` (`null`/`undefined`
elements become empty). -/
def jsToStringElems : List Value → List String
  | [] => []
  | .null :: vs => "" :: jsToStringElems vs
  | .undefined :: vs => "" :: jsToStringElems vs
  | v :: vs => jsToString v :: jsToStringElems vs

end

/-- The JavaScript facilities the pipeline calls out to, with no algorithmic
content of their own in this repository: the regex engine (`new RegExp(p)`
may throw on an invalid pattern, hence `Except`), `Date` parsing and
formatting, `new URL`, `parseFloat` and `Number(string)` (`none` = `NaN`),
`Math.sqrt` (float arithmetic).  Theorems quantify over this record. -/
structure JsEnv where
  /-- `new RegExp(pattern).test(input)`; `.error` models a thrown
  `SyntaxError` for an invalid pattern. -/
  regexTest : String → String → Except String Bool
  /-- `input.replace(new RegExp(pattern, 'g'), replacement)`. -/
  regexReplaceAll : String → String → String → Except String String
  /-- `!isNaN(Date.parse(s))`. -/
  dateParseOk : String → Bool
  /-- `!isNaN(Date.parse(value))` on an arbitrary (coerced) value. -/
  dateParseValOk : Value → Bool
  /-- `new URL(value)` succeeds. -/
  urlOk : Value → Bool
  /-- `parseFloat(s)`; `none` = `NaN`. -/
  parseFloatNum : String → Option ℚ
  /-- `Number(s)` for a string; `none` = `NaN`. -/
  numFromString : String → Option ℚ
  /-- `Math.sqrt` (on the float reading of the rational). -/
  mathSqrt : ℚ → ℚ
  /-- `new Date(value).toISOString()`. -/
  dateIso : Value → String
  /-- `DataPipeline.formatDate(new Date(value), fmt)` (ISO date part). -/
  dateShort : Value → String

/-- `Number(value)` coercion; `none` = `NaN`.  Arrays and objects coerce via
their string form, exactly as JS `ToPrimitive` does for them. -/
def jsToNumber (env : JsEnv) : Value → Option ℚ
  | .null => some 0
  | .undefined => none
  | .bool b => some (cond b 1 0)
  | .num q => some q
  | .str s => env.numFromString s
  | .arr es => env.numFromString (jsToString (.arr es))
  | .obj fs => env.numFromString (jsToString (.obj fs))

/-- The idiom `Number(val) || 0`: NaN (and 0 itself) collapse to 0. -/
def numOrZero (env : JsEnv) (v : Value) : ℚ :=
  (jsToNumber env v).getD 0

/-- `map.set(k, v)` on an insertion-ordered association list, also the
object-spread update `{...m, [k]: v}`: an existing key is updated in place,
a new key is appended. -/
def setAssoc {α : Type} (l : List (String × α)) (k : String) (v : α) :
    List (String × α) :=
  if (l.lookup k).isSome then
    l.map fun p => if p.1 == k then (k, v) else p
  else
    l ++ [(k, v)]

/-- `data[field]`: a missing key reads as `undefined`. -/
def getField (data : FieldMap) (k : String) : Value :=
  (data.lookup k).getD .undefined

/-- `Math.round(x)` = `⌊x + 1/2⌋`. -/
def jsRound (q : ℚ) : ℤ :=
  ⌊q + 1/2⌋

/-! ## Character-list string primitives

`String.splitOn`, `String.startsWith` and friends are opaque to kernel
reduction, so the splitting and scanning the embedding needs is realised
over `String.data` (the character list), with the same semantics. -/

/-- Is `p` a prefix of `l` (char-by-char)? -/
def startsWithChars (p l : List Char) : Bool :=
  match p, l with
  | [], _ => true
  | _ :: _, [] => false
  | a :: as, b :: bs => a == b && startsWithChars as bs

/-- JS `s.startsWith(p)`. -/
def strStartsWith (s p : String) : Bool :=
  startsWithChars p.data s.data

/-- JS `s.endsWith(p)`. -/
def strEndsWith (s p : String) : Bool :=
  startsWithChars p.data.reverse s.data.reverse

/-- Does `needle` occur (contiguously) in the list? -/
def hasSubChars (needle : List Char) : List Char → Bool
  | [] => needle.isEmpty
  | c :: rest => startsWithChars needle (c :: rest) || hasSubChars needle rest

/-- JS `s.includes(sub)`. -/
def strIncludes (s sub : String) : Bool :=
  hasSubChars sub.data s.data

/-- Split a character list on a separator character, `String.splitOn`
style: `splitOnChar '.' "a.b".data = [['a'],['b']]`, and the empty list
splits to `[[]]`. -/
def splitOnChar (sep : Char) : List Char → List (List Char)
  | [] => [[]]
  | c :: rest =>
    let r := splitOnChar sep rest
    if c == sep then [] :: r
    else
      match r with
      | h :: t => (c :: h) :: t
      | [] => [[c]]

/-- `DataPipeline.extractFieldValue`: dotted-path lookup into a field map,
returning `null` when any intermediate segment is missing or not an
object/array (source `context.ts:1098-1111`). -/
def extractFieldValuePath : List String → Value → Value
  | [], v => v
  | k :: ks, v =>
    match v with
    | .obj fs =>
      match fs.lookup k with
      | some v' => extractFieldValuePath ks v'
      | none => .null
    | .arr es =>
      match k.toNat? with
      | some i =>
        match es[i]? with
        | some v' => extractFieldValuePath ks v'
        | none => .null
      | none => .null
    | _ => .null

def extractFieldValue (data : FieldMap) (fieldPath : String) : Value :=
  extractFieldValuePath ((splitOnChar '.' fieldPath.data).map String.mk) (.obj data)

/-! ## The built-in string classifiers

The email and phone regexes of the source
(`/^[^\s@]+@[^\s@]+\.[^\s@]+$/` and `/^\+?[\d\s\-\(\)]+$/`, used both by the
validator registry and by `inferFieldType`) are simple enough to realise
directly as decidable string predicates. -/

/-- A character admitted by `[^\s@]`. -/
def emailChar (c : Char) : Bool :=
  !jsIsSpace c && c != '@'

/-- `/^[^\s@]+@[^\s@]+\.[^\s@]+$/.test s`: exactly one `@`, a non-empty
local part, and a `.` in the domain that has at least one admitted character
on each side (the middle `[^\s@]+` may itself contain dots). -/
def isEmailLike (s : String) : Bool :=
  match splitOnChar '@' s.data with
  | [a, b] =>
    !a.isEmpty && a.all emailChar && b.all emailChar &&
      ((b.drop 1).dropLast.contains '.')
  | _ => false

/-- A character admitted by `[\d\s\-\(\)]`. -/
def phoneChar (c : Char) : Bool :=
  c.isDigit || jsIsSpace c || c == '-' || c == '(' || c == ')'

/-- `/^\+?[\d\s\-\(\)]+$/.test s`. -/
def isPhoneLike (s : String) : Bool :=
  let t :=
    match s.data with
    | '+' :: rest => rest
    | cs => cs
  !t.isEmpty && t.all phoneChar

/-! ## Pipeline data model (`src/src/types/data.ts`) -/

/-- `ValidationRule` (`data.ts:360-365`).  The `type` union is kept as a
string so that the source's switch-with-default behaviour on unknown rule
types carries over verbatim. -/
structure ValidationRule where
  type : String
  value : Option Value := none
  message : Option String := none
  validator : Option String := none
deriving Repr, BEq

/-- `QualityIssue` (`data.ts:140-146`). -/
structure QualityIssue where
  type : String
  field : String
  description : String
  severity : String
deriving Repr, BEq

/-- `DataQuality` (`data.ts:132-138`); the four ratios are rationals. -/
structure DataQuality where
  completeness : ℚ
  accuracy : ℚ
  consistency : ℚ
  timeliness : ℚ
  issues : List QualityIssue
deriving Repr, BEq

/-- `CleaningCondition` (`data.ts:280-285`). -/
structure CleaningCondition where
  field : String
  operator : String
  value : Value
  negate : Option Bool := none
deriving Repr, BEq

/-- `CleaningRule` (`data.ts:273-278`). -/
structure CleaningRule where
  field : String
  operation : String
  parameters : FieldMap
  conditions : Option (List CleaningCondition) := none
deriving Repr, BEq

/-- `DataTransformation` (`data.ts:122-130`). -/
structure DataTransformation where
  field : String
  operation : String
  parameters : FieldMap
  before : Value
  after : Value
  success : Bool
  error : Option String := none
deriving Repr, BEq

/-- `ExtractedData` (`data.ts:85-92`), restricted to the fields the pipeline
reads (`id` and the raw field map; `selectors` and extraction metadata are
never consulted by the verified operations). -/
structure ExtractedData where
  id : String
  url : String
  timestamp : ℕ
  raw : FieldMap
deriving Repr, BEq

/-- `ProcessedData` (`data.ts:113-120`). -/
structure ProcessedData where
  id : String
  originalId : String
  processed : FieldMap
  transformations : List DataTransformation
  quality : DataQuality
  timestamp : ℕ
deriving Repr, BEq

/-- `AggregationRule` (`context.ts:1163-1167`). -/
structure AggregationRule where
  fields : List String
  operation : String
  parameters : Option FieldMap := none
deriving Repr, BEq

/-- `AggregatedData` (`data.ts:319-325`). -/
structure AggregatedData where
  id : String
  sourceIds : List String
  aggregated : FieldMap
  aggregationRules : List AggregationRule
  timestamp : ℕ
deriving Repr, BEq

/-- `FieldStatistics` (`data.ts:391-399`). -/
structure FieldStatistics where
  min : Option ℚ := none
  max : Option ℚ := none
  avg : Option ℚ := none
  median : Option ℚ := none
  standardDeviation : Option ℚ := none
deriving Repr, BEq

/-- `SchemaField` (`data.ts:350-358`); the type taxonomy is the string union
`string | number | boolean | date | url | email | phone | object | array`. -/
structure SchemaField where
  name : String
  type : String
  required : Bool
  description : String
  validation : List ValidationRule
deriving Repr, BEq

/-- `DataSchema` (`data.ts:343-348`). -/
structure DataSchema where
  version : String
  fields : List SchemaField
deriving Repr, BEq

/-- One entry of `ProcessingJob.errors` (`context.ts:1156-1160`). -/
structure JobError where
  recordId : String
  error : String
  timestamp : ℕ
deriving Repr, BEq

/-- `ProcessingJob` (`context.ts:1147-1161`). -/
structure ProcessingJob where
  id : String
  sessionId : String
  status : String
  progress : ℤ
  totalRecords : ℕ
  processedRecords : ℕ
  startTime : ℕ
  endTime : Option ℕ := none
  errors : List JobError
deriving Repr, BEq

/-! ## Validator/Transformer registries (`context.ts:902-949`) -/

/-- `initializeBuiltInTransformations` (`context.ts:902-926`): the pre-seeded
name→function transformer registry.  `removeSpecialChars` keeps
`[a-zA-Z0-9\s]`; `parseNumber` strips characters outside `[0-9.-]`, then
`parseFloat`s, returning the original value when the parse is NaN. -/
def transformationRegistry (env : JsEnv) :
    List (String × (Value → FieldMap → Value)) :=
  [("uppercase", fun v _ =>
      match v with
      | .str s => .str s.toUpper
      | v => v),
   ("lowercase", fun v _ =>
      match v with
      | .str s => .str s.toLower
      | v => v),
   ("trim", fun v _ =>
      match v with
      | .str s => .str s.trim
      | v => v),
   ("removeSpecialChars", fun v _ =>
      match v with
      | .str s =>
        .str (String.mk (s.toList.filter fun c => c.isAlphanum || jsIsSpace c))
      | v => v),
   ("parseNumber", fun v _ =>
      match v with
      | .str s =>
        let stripped :=
          String.mk (s.toList.filter fun c => c.isDigit || c == '.' || c == '-')
        match env.parseFloatNum stripped with
        | some q => .num q
        | none => .str s
      | v => v)]

/-- `initializeBuiltInValidators` (`context.ts:928-949`): the pre-seeded
name→predicate validator registry. -/
def validationRegistry (env : JsEnv) : List (String × (Value → Bool)) :=
  [("email", fun v =>
      match v with
      | .str s => isEmailLike s
      | _ => false),
   ("url", fun v => env.urlOk v),
   ("phone", fun v =>
      match v with
      | .str s => isPhoneLike s
      | _ => false),
   ("date", fun v => env.dateParseValOk v)]

/-- `normalizeValue` (`context.ts:951-958`). -/
def normalizeValue (value : Value) (parameters : FieldMap) : Value :=
  match value with
  | .str s =>
    if jsStrictEq (getField parameters "case") (.str "upper") then .str s.toUpper
    else if jsStrictEq (getField parameters "case") (.str "lower") then .str s.toLower
    else if jsTruthy (getField parameters "trim") then .str s.trim
    else .str s
  | v => v

/-- `formatValue` (`context.ts:960-970`); `new Date(value)` never throws, so
the source's try/catch is dead and the function is total. -/
def formatValue (env : JsEnv) (value : Value) (parameters : FieldMap) : Value :=
  if jsStrictEq (getField parameters "type") (.str "date") && jsTruthy value then
    if jsTruthy (getField parameters "format") then .str (env.dateShort value)
    else .str (env.dateIso value)
  else value

/-- `validateValue` (`context.ts:972-978`): run the registry validator named
by `parameters.validator` when present; a falsy or unregistered (or
non-string) name makes the check vacuously succeed. -/
def validateValue (env : JsEnv) (value : Value) (parameters : FieldMap) : Bool :=
  match getField parameters "validator" with
  | .str name =>
    if name != "" then
      match (validationRegistry env).lookup name with
      | some f => f value
      | none => true
    else true
  | _ => true

/-- `validateFieldValue` (`context.ts:980-997`).  `format` builds its regex
unconditionally (and so can throw even on non-string values, which `.test`
coerces to strings); `pattern` guards on `typeof value === 'string'` first,
so its regex is only built for strings.  Range and length checks read the
rule's `value` as a numeric pair resp. a number, and fail on any other
shape, as the JS comparisons with `undefined` do. -/
def validateFieldValue (env : JsEnv) (value : Value) (rule : ValidationRule) :
    Except String Bool :=
  match rule.type with
  | "required" => .ok (hasValue value)
  | "format" =>
    match rule.validator with
    | some pat => env.regexTest pat (jsToString value)
    | none => .ok true
  | "range" =>
    match value, rule.value with
    | .num q, some (.arr (.num a :: .num b :: _)) => .ok (decide (a ≤ q ∧ q ≤ b))
    | _, _ => .ok false
  | "length" =>
    match value, rule.value with
    | .str s, some (.num n) => .ok (decide ((s.length : ℚ) ≤ n))
    | _, _ => .ok false
  | "pattern" =>
    match value with
    | .str s => env.regexTest (rule.validator.getD "") s
    | _ => .ok false
  | _ => .ok true

/-- `isValueConsistent` (`context.ts:1047-1050`): the deliberately weak
placeholder — a value is consistent iff it is not `null`/`undefined`. -/
def isValueConsistent : Value → Bool
  | .null => false
  | .undefined => false
  | _ => true

/-! ## Quality assessment (`assessDataQuality`, `context.ts:792-854`) -/

/-- The filter selecting the validation rules applicable to a field:
`!rule.validator || rule.validator === field` — an absent or falsy (empty)
`validator` applies the rule to every field. -/
def ruleAppliesTo (field : String) (rule : ValidationRule) : Bool :=
  match rule.validator with
  | none => true
  | some v => v == "" || v == field

/-- The inner rule loop of `assessDataQuality` for one field: count passing
evaluations and collect one `invalid`/`high` issue per failure. -/
def evalFieldRules (env : JsEnv) (field : String) (value : Value) :
    List ValidationRule → Except String (ℕ × List QualityIssue)
  | [] => .ok (0, [])
  | rule :: rest =>
    match validateFieldValue env value rule with
    | .error e => .error e
    | .ok isValid =>
      match evalFieldRules env field value rest with
      | .error e => .error e
      | .ok (a, issues) =>
        if isValid then
          .ok (a + 1, issues)
        else
          .ok (a, { type := "invalid", field := field,
                    description := rule.message.getD
                      ("Field " ++ field ++ " failed validation"),
                    severity := "high" } :: issues)

/-- The field loop of `assessDataQuality`: for each entry accumulate the
completed/accurate/consistent counters and the issue list, in source order
(missing issue, then invalid issues in rule order, then inconsistent
issue, per field). -/
def assessLoop (env : JsEnv) (validationRules : List ValidationRule) :
    List (String × Value) → Except String (ℕ × ℕ × ℕ × List QualityIssue)
  | [] => .ok (0, 0, 0, [])
  | (field, value) :: rest =>
    let (completed1, issues1) :=
      if hasValue value then ((1 : ℕ), ([] : List QualityIssue))
      else (0, [{ type := "missing", field := field,
                  description := "Field " ++ field ++ " is missing or empty",
                  severity := "medium" }])
    let fieldRules := validationRules.filter (ruleAppliesTo field)
    match evalFieldRules env field value fieldRules with
    | .error e => .error e
    | .ok (accurate1, issues2) =>
      let (consistent1, issues3) :=
        if isValueConsistent value then ((1 : ℕ), ([] : List QualityIssue))
        else (0, [{ type := "inconsistent", field := field,
                    description := "Field " ++ field ++ " has inconsistent format",
                    severity := "low" }])
      match assessLoop env validationRules rest with
      | .error e => .error e
      | .ok (c, a, k, iss) =>
        .ok (completed1 + c, accurate1 + a, consistent1 + k,
             issues1 ++ issues2 ++ issues3 ++ iss)

/-- `assessDataQuality` (`context.ts:792-854`): the four quality ratios over
the common field-count denominator, plus the itemised issues.  `timeliness`
is fixed at 1.  A thrown regex error inside a `format`/`pattern` rule
propagates (it is caught at the record level by `processData`). -/
def assessDataQuality (env : JsEnv) (data : FieldMap)
    (validationRules : List ValidationRule) : Except String DataQuality :=
  let fieldCount := data.length
  match assessLoop env validationRules data with
  | .error e => .error e
  | .ok (completedFields, accurateFields, consistentFields, issues) =>
    .ok { completeness :=
            if fieldCount > 0 then (completedFields : ℚ) / fieldCount else 0,
          accuracy :=
            if fieldCount > 0 then (accurateFields : ℚ) / fieldCount else 0,
          consistency :=
            if fieldCount > 0 then (consistentFields : ℚ) / fieldCount else 0,
          timeliness := 1,
          issues := issues }

/-! ## Cleaning conditions (`matchesConditions`, `context.ts:856-900`) -/

/-- `fieldValue >= v` under JS numeric coercion of `v` (`NaN` compares
false). -/
def jsGE (env : JsEnv) (q : ℚ) (v : Value) : Bool :=
  match jsToNumber env v with
  | some b => decide (q ≥ b)
  | none => false

/-- `fieldValue <= v` under JS numeric coercion of `v`. -/
def jsLE (env : JsEnv) (q : ℚ) (v : Value) : Bool :=
  match jsToNumber env v with
  | some b => decide (q ≤ b)
  | none => false

/-- `condition.value[i]` for the `between` bounds; a non-array reads as
`undefined` (whose numeric coercion is NaN, so the comparison fails). -/
def condIndex (v : Value) (i : ℕ) : Value :=
  match v with
  | .arr es => (es[i]?).getD .undefined
  | _ => .undefined

/-- The operator switch of `matchesConditions`, before negation.  An
unrecognised operator leaves `matches` at `false`.  Only the string-guarded
`matches` operator reaches the regex engine. -/
def evalConditionRaw (env : JsEnv) (data : FieldMap) (c : CleaningCondition) :
    Except String Bool :=
  let fieldValue := getField data c.field
  match c.operator with
  | "equals" => .ok (jsStrictEq fieldValue c.value)
  | "contains" =>
    match fieldValue with
    | .str s => .ok (strIncludes s (jsToString c.value))
    | _ => .ok false
  | "startsWith" =>
    match fieldValue with
    | .str s => .ok (strStartsWith s (jsToString c.value))
    | _ => .ok false
  | "endsWith" =>
    match fieldValue with
    | .str s => .ok (strEndsWith s (jsToString c.value))
    | _ => .ok false
  | "matches" =>
    match fieldValue with
    | .str s => env.regexTest (jsToString c.value) s
    | _ => .ok false
  | "gt" =>
    match fieldValue with
    | .num q =>
      .ok (match jsToNumber env c.value with
            | some b => decide (q > b)
            | none => false)
    | _ => .ok false
  | "lt" =>
    match fieldValue with
    | .num q =>
      .ok (match jsToNumber env c.value with
            | some b => decide (q < b)
            | none => false)
    | _ => .ok false
  | "between" =>
    match fieldValue with
    | .num q => .ok (jsGE env q (condIndex c.value 0) &&
                      jsLE env q (condIndex c.value 1))
    | _ => .ok false
  | _ => .ok false

/-- One condition including its optional negation
(`if (condition.negate) matches = !matches`). -/
def evalCondition (env : JsEnv) (data : FieldMap) (c : CleaningCondition) :
    Except String Bool :=
  match evalConditionRaw env data c with
  | .error e => .error e
  | .ok m => .ok (if c.negate.getD false then !m else m)

/-- `matchesConditions` (`context.ts:856-900`): every condition must match
(AND semantics); the loop returns `false` at the first non-matching
condition and an empty condition list matches vacuously. -/
def matchesConditions (env : JsEnv) (data : FieldMap) :
    List CleaningCondition → Except String Bool
  | [] => .ok true
  | c :: cs =>
    match evalCondition env data c with
    | .error e => .error e
    | .ok m => if m then matchesConditions env data cs else .ok false

/-! ## Cleaning rules and the batch loop
(`applyCleaningRule` `context.ts:723-790`, `processData` `context.ts:407-490`) -/

/-- `applyCleaningRule` (`context.ts:723-790`).  The operation switch runs
inside a try/catch, so the function is total: a thrown error (only the
`replace` regex can throw in the modelled paths) or an unknown operation
yields an unsuccessful transformation with the original value, never an
exception.  The result is never `null`, so the caller's `if (transformation)`
guard is vacuous. -/
def applyCleaningRule (env : JsEnv) (data : FieldMap) (rule : CleaningRule) :
    DataTransformation :=
  let fieldValue := getField data rule.field
  let attempt : Except String (Value × Bool × Option String) :=
    match rule.operation with
    | "trim" =>
      .ok (match fieldValue with
           | .str s => .str s.trim
           | v => v, true, none)
    | "normalize" => .ok (normalizeValue fieldValue rule.parameters, true, none)
    | "format" => .ok (formatValue env fieldValue rule.parameters, true, none)
    | "validate" =>
      if validateValue env fieldValue rule.parameters then
        .ok (fieldValue, true, none)
      else
        .ok (fieldValue, false,
             some ("Validation failed for field " ++ rule.field))
    | "transform" =>
      match getField rule.parameters "transformer" with
      | .str name =>
        if name != "" then
          match (transformationRegistry env).lookup name with
          | some f => .ok (f fieldValue rule.parameters, true, none)
          | none => .ok (fieldValue, true, none)
        else .ok (fieldValue, true, none)
      | _ => .ok (fieldValue, true, none)
    | "filter" => .ok (fieldValue, true, none)
    | "replace" =>
      match fieldValue with
      | .str s =>
        if jsTruthy (getField rule.parameters "pattern") &&
           jsTruthy (getField rule.parameters "replacement") then
          match env.regexReplaceAll
            (jsToString (getField rule.parameters "pattern"))
            (jsToString (getField rule.parameters "replacement")) s with
          | .error e => .error e
          | .ok replaced => .ok (.str replaced, true, none)
        else .ok (.str s, true, none)
      | v => .ok (v, true, none)
    | _ => .ok (fieldValue, false, some ("Unknown operation: " ++ rule.operation))
  match attempt with
  | .ok (after, success, err) =>
    { field := rule.field, operation := rule.operation,
      parameters := rule.parameters, before := fieldValue, after := after,
      success := success, error := err }
  | .error e =>
    { field := rule.field, operation := rule.operation,
      parameters := rule.parameters, before := fieldValue, after := fieldValue,
      success := false, error := some e }

/-- The cleaning-rule loop of `processData` (`context.ts:438-446`): for each
rule whose conditions match, apply it, record the transformation and update
the field (`cleaned = {...cleaned, [rule.field]: transformation.after}`).
A condition-regex error propagates to the per-record catch. -/
def applyCleaningRules (env : JsEnv) :
    FieldMap → List CleaningRule → Except String (FieldMap × List DataTransformation)
  | cleaned, [] => .ok (cleaned, [])
  | cleaned, rule :: rest =>
    match matchesConditions env cleaned (rule.conditions.getD []) with
    | .error e => .error e
    | .ok m =>
      if m then
        let t := applyCleaningRule env cleaned rule
        let cleaned2 := setAssoc cleaned rule.field t.after
        match applyCleaningRules env cleaned2 rest with
        | .error e => .error e
        | .ok (finalMap, ts) => .ok (finalMap, t :: ts)
      else
        applyCleaningRules env cleaned rest

/-- The per-record try-block of `processData` (`context.ts:433-464`): clean,
assess quality, and build the `ProcessedData` record.  `rid` stands for the
generated `uuidv4()` and `now` for the `new Date()` timestamp. -/
def tryProcessRecord (env : JsEnv) (rid : String) (now : ℕ)
    (cleaningRules : List CleaningRule) (validationRules : List ValidationRule)
    (raw : ExtractedData) : Except String ProcessedData :=
  match applyCleaningRules env raw.raw cleaningRules with
  | .error e => .error e
  | .ok (cleaned, transformations) =>
    match assessDataQuality env cleaned validationRules with
    | .error e => .error e
    | .ok quality =>
      .ok { id := rid, originalId := raw.id, processed := cleaned,
            transformations := transformations, quality := quality,
            timestamp := now }

/-- The record loop of `processData` (`context.ts:430-473`): a failing
record appends one error keyed by its id and the loop continues; a
successful record is appended in input order and bumps the job counters.
`ids k` is the `uuidv4()` for the `k`-th record. -/
def processLoop (env : JsEnv) (ids : ℕ → String) (now : ℕ)
    (cleaningRules : List CleaningRule) (validationRules : List ValidationRule) :
    List ExtractedData → ℕ → List ProcessedData → ProcessingJob →
      List ProcessedData × ProcessingJob
  | [], _, acc, job =>
    (acc, { job with status := "completed", endTime := some now })
  | raw :: rest, k, acc, job =>
    match tryProcessRecord env (ids k) now cleaningRules validationRules raw with
    | .ok p =>
      let processed' := job.processedRecords + 1
      let job' := { job with
        processedRecords := processed',
        progress := jsRound ((processed' : ℚ) / (job.totalRecords : ℚ) * 100) }
      processLoop env ids now cleaningRules validationRules rest (k + 1)
        (acc ++ [p]) job'
    | .error e =>
      processLoop env ids now cleaningRules validationRules rest (k + 1) acc
        { job with errors := job.errors ++
            [{ recordId := raw.id, error := e, timestamp := now }] }

/-- `DataPipeline.processData` (`context.ts:407-490`).  `ids 0` is the job
id, `ids (k+1)` the id of the `k`-th processed record; `now` models the
wall clock for the timestamps.  The outer catch of the source is
unreachable (every failure point sits inside the per-record try), so the
function is total and the job always finishes `completed`. -/
def processData (env : JsEnv) (ids : ℕ → String) (now : ℕ) (sessionId : String)
    (rawData : List ExtractedData) (cleaningRules : List CleaningRule)
    (validationRules : List ValidationRule) :
    List ProcessedData × ProcessingJob :=
  let job : ProcessingJob :=
    { id := ids 0, sessionId := sessionId, status := "running", progress := 0,
      totalRecords := rawData.length, processedRecords := 0, startTime := now,
      endTime := none, errors := [] }
  processLoop env (fun k => ids (k + 1)) now cleaningRules validationRules
    rawData 0 [] job

/-! ## Aggregation (`context.ts:495-524`, `1077-1143`) -/

/-- Insert a record into its group, preserving the `Map`'s insertion order
of group keys. -/
def insertGroup (groups : List (String × List ProcessedData)) (k : String)
    (r : ProcessedData) : List (String × List ProcessedData) :=
  if groups.any (fun g => g.1 == k) then
    groups.map fun g => if g.1 == k then (g.1, g.2 ++ [r]) else g
  else
    groups ++ [(k, [r])]

/-- `groupDataForAggregation` (`context.ts:1077-1096`): group by the
stringified value of the first field of the first rule; with no rules every
record lands in the `'default'` group.  (With a first rule whose `fields`
is empty the source would crash on `undefined.split`; that path, outside
every claim, reads the path as `""` here.) -/
def groupDataForAggregation (data : List ProcessedData)
    (rules : List AggregationRule) : List (String × List ProcessedData) :=
  data.foldl
    (fun groups record =>
      let groupKey :=
        match rules with
        | [] => "default"
        | rule :: _ =>
          jsToString (extractFieldValue record.processed (rule.fields.headD ""))
      insertGroup groups groupKey record)
    []

/-- The minimum of a list of rationals (`Math.min(...)`, only reached on a
non-empty list). -/
def listMin (l : List ℚ) : ℚ :=
  l.foldl min (l.headD 0)

/-- The maximum of a list of rationals (`Math.max(...)`). -/
def listMax (l : List ℚ) : ℚ :=
  l.foldl max (l.headD 0)

/-- Shallow object spread `{...merged, ...v}` for the `merge` operation;
spreading a non-object contributes nothing (the JS corner of spreading a
string as index keys is not exercised). -/
def mergeSpread (acc : FieldMap) : Value → FieldMap
  | .obj fs => fs.foldl (fun m p => setAssoc m p.1 p.2) acc
  | _ => acc

/-- `applyAggregation` (`context.ts:1113-1143`): filter out `null` and
`undefined`, then reduce with the rule's operation; numeric reductions
coerce values through `Number(val) || 0`. -/
def applyAggregation (env : JsEnv) (values : List Value) (operation : String)
    (parameters : Option FieldMap) : Value :=
  let filteredValues := values.filter fun v =>
    !(jsStrictEq v .null) && !(jsStrictEq v .undefined)
  match operation with
  | "sum" => .num (filteredValues.foldl (fun s v => s + numOrZero env v) 0)
  | "average" =>
    if filteredValues.length > 0 then
      .num ((filteredValues.foldl (fun s v => s + numOrZero env v) 0) /
            (filteredValues.length : ℚ))
    else .num 0
  | "min" =>
    if filteredValues.length > 0 then
      .num (listMin (filteredValues.map (numOrZero env)))
    else .null
  | "max" =>
    if filteredValues.length > 0 then
      .num (listMax (filteredValues.map (numOrZero env)))
    else .null
  | "count" => .num (filteredValues.length : ℚ)
  | "concat" =>
    let sep :=
      match parameters with
      | some ps =>
        let v := getField ps "separator"
        if jsTruthy v then jsToString v else ", "
      | none => ", "
    .str (String.intercalate sep (filteredValues.map jsToString))
  | "first" =>
    match filteredValues with
    | [] => .null
    | v :: _ => if jsTruthy v then v else .null
  | "last" =>
    match filteredValues.getLast? with
    | none => .null
    | some v => if jsTruthy v then v else .null
  | "merge" => .obj (filteredValues.foldl mergeSpread [])
  | _ => .arr filteredValues

/-- `DataPipeline.aggregateData` (`context.ts:495-524`): one
`AggregatedData` row per group in insertion order, with the reduced value
of every rule's first field and the member records' ids.  `ids i` models
the `uuidv4()` of the `i`-th row. -/
def aggregateData (env : JsEnv) (ids : ℕ → String) (now : ℕ)
    (processedData : List ProcessedData) (aggregationRules : List AggregationRule) :
    List AggregatedData :=
  let groups := groupDataForAggregation processedData aggregationRules
  groups.enum.map fun ig =>
    let records := ig.2.2
    let aggregated := aggregationRules.foldl
      (fun agg rule =>
        let fld := rule.fields.headD ""
        let values := records.map fun r => extractFieldValue r.processed fld
        setAssoc agg fld (applyAggregation env values rule.operation rule.parameters))
      []
    { id := ids ig.1, sourceIds := records.map (·.id),
      aggregated := aggregated, aggregationRules := aggregationRules,
      timestamp := now }

/-! ## Numeric statistics (`calculateNumericStatistics`, `context.ts:1029-1045`) -/

/-- `calculateNumericStatistics` (`context.ts:1029-1045`): on a non-empty
value list, min, max, mean, the median as the sorted array's element at
index `⌊length/2⌋`, and the population standard deviation (square root of
the `/N` variance, the root taken by the float library).  The empty list
yields the empty statistics object. -/
def calculateNumericStatistics (env : JsEnv) (values : List ℚ) :
    FieldStatistics :=
  if values.length = 0 then {} else
    let sorted := values.insertionSort (· ≤ ·)
    let sum := values.foldl (· + ·) 0
    let mean := sum / (values.length : ℚ)
    { min := some (listMin values),
      max := some (listMax values),
      avg := some mean,
      median := some (sorted.getD (sorted.length / 2) 0),
      standardDeviation := some (env.mathSqrt
        ((values.foldl (fun sq v => sq + (v - mean) ^ 2) 0) /
         (values.length : ℚ))) }

/-! ## Schema inference (`inferDataSchema`, `context.ts:605-645`, `1003-1023`) -/

/-- JS `Array.prototype.indexOf` on a string list: first index or `-1`. -/
def jsIndexOf (l : List String) (a : String) : ℤ :=
  match l.findIdx? (fun x => x == a) with
  | some i => (i : ℤ)
  | none => -1

/-- The fixed specificity order of `isMoreSpecificType`
(`context.ts:1021`). -/
def specificity : List String :=
  ["string", "date", "phone", "email", "url", "number", "boolean", "array", "object"]

/-- `isMoreSpecificType` (`context.ts:1020-1023`). -/
def isMoreSpecificType (newType currentType : String) : Bool :=
  jsIndexOf specificity newType > jsIndexOf specificity currentType

/-- `inferFieldType` (`context.ts:1003-1018`): primitives by `typeof`, then
the string classifiers in source order (email, url, phone, date), finally
`string`. -/
def inferFieldType (env : JsEnv) (value : Value) : String :=
  match value with
  | .null => "string"
  | .undefined => "string"
  | .bool _ => "boolean"
  | .num _ => "number"
  | .arr _ => "array"
  | .obj _ => "object"
  | .str s =>
    if isEmailLike s then "email"
    else if strStartsWith s "http://" || strStartsWith s "https://" then "url"
    else if isPhoneLike s then "phone"
    else if env.dateParseOk s then "date"
    else "string"

/-- One `[fieldName, value]` entry's pass of the `inferDataSchema` field
loop (`context.ts:609-627`): a missing field is first inserted with its
inferred type, then the stored type is widened when the newly inferred
type is strictly more specific. -/
def schemaUpdateEntry (env : JsEnv) (fs : List SchemaField)
    (p : String × Value) : List SchemaField :=
  let inserted :=
    if fs.any (fun f => f.name == p.1) then fs
    else fs ++ [{ name := p.1, type := inferFieldType env p.2,
                  required := false,
                  description := "Auto-inferred field: " ++ p.1,
                  validation := [] }]
  let currentType := inferFieldType env p.2
  inserted.map fun f =>
    if f.name == p.1 then
      if isMoreSpecificType currentType f.type then
        { f with type := currentType }
      else f
    else f

/-- One record's pass of the `inferDataSchema` field loop
(`context.ts:608-628`). -/
def schemaUpdateRecord (env : JsEnv) (fields : List SchemaField)
    (record : FieldMap) : List SchemaField :=
  record.foldl (schemaUpdateEntry env) fields

/-- The required-field pass of `inferDataSchema` (`context.ts:631-639`):
a field is required when it is present and non-empty in more than 90% of
the records. -/
def requiredMark (data : List ProcessedData) (f : SchemaField) : SchemaField :=
  let presence :=
    (data.filter fun d => hasValue (getField d.processed f.name)).length
  { f with required := decide ((presence : ℚ) / (data.length : ℚ) > 9 / 10) }

/-- `DataPipeline.inferDataSchema` (`context.ts:605-645`): fold the field
loop over the batch, then mark the required fields. -/
def inferDataSchema (env : JsEnv) (data : List ProcessedData) : DataSchema :=
  let fields := data.foldl (fun fs r => schemaUpdateRecord env fs r.processed) []
  { version := "1.0.0", fields := fields.map (requiredMark data) }

/-! ## Session registry data model (`src/unnamed/part_000`,
`src/src/types/data.ts`, `src/src/types/config.ts`) -/

structure RateLimit where
  delayMs : ℚ
  burstLimit : ℚ
deriving Repr, BEq

structure RetryOptions where
  maxAttempts : ℚ
  backoffMs : ℚ
deriving Repr, BEq

structure TimeoutConfig where
  pageLoadMs : ℚ
  elementWaitMs : ℚ
deriving Repr, BEq

/-- `SessionConfig` (`data.ts:22-43`), restricted to the fields the session
manager reads or defaults (`headers`, `proxy` and `securityPolicy` are
opaque pass-through configuration never consulted by the verified
operations). -/
structure SessionConfig where
  rateLimit : Option RateLimit := none
  retryOptions : Option RetryOptions := none
  timeout : Option TimeoutConfig := none
  userAgent : Option String := none
  javascriptEnabled : Bool := true
  allowRedirects : Bool := true
  maxRedirects : ℚ := 5
  cookiesEnabled : Bool := true
deriving Repr, BEq

/-- `Partial<SessionConfig>`: every field optional; a present field
overrides on spread. -/
structure PartialSessionConfig where
  rateLimit : Option RateLimit := none
  retryOptions : Option RetryOptions := none
  timeout : Option TimeoutConfig := none
  userAgent : Option String := none
  javascriptEnabled : Option Bool := none
  allowRedirects : Option Bool := none
  maxRedirects : Option ℚ := none
  cookiesEnabled : Option Bool := none
deriving Repr, BEq

/-- The spread `{...base, ...partial}` on session configurations. -/
def mergeConfig (base : SessionConfig) (p : PartialSessionConfig) :
    SessionConfig :=
  { rateLimit := p.rateLimit.orElse fun _ => base.rateLimit,
    retryOptions := p.retryOptions.orElse fun _ => base.retryOptions,
    timeout := p.timeout.orElse fun _ => base.timeout,
    userAgent := p.userAgent.orElse fun _ => base.userAgent,
    javascriptEnabled := p.javascriptEnabled.getD base.javascriptEnabled,
    allowRedirects := p.allowRedirects.getD base.allowRedirects,
    maxRedirects := p.maxRedirects.getD base.maxRedirects,
    cookiesEnabled := p.cookiesEnabled.getD base.cookiesEnabled }

/-- A `process.memoryUsage()` snapshot (external reading; the `external`
byte counter is named `ext` here). -/
structure MemoryUsage where
  rss : ℚ
  heapTotal : ℚ
  heapUsed : ℚ
  ext : ℚ
  arrayBuffers : ℚ
deriving Repr, BEq

structure MemoryUsageTriple where
  start : MemoryUsage
  peak : MemoryUsage
  current : MemoryUsage
deriving Repr, BEq

/-- `PerformanceMetrics` (`config.ts:132-147`). -/
structure PerformanceMetrics where
  startTime : ℕ
  endTime : Option ℕ := none
  duration : Option ℚ := none
  pagesProcessed : ℚ
  dataPointsExtracted : ℚ
  errorsEncountered : ℚ
  averagePageLoadTime : ℚ
  successRate : ℚ
  throughputPerMinute : ℚ
  memoryUsage : MemoryUsageTriple
deriving Repr, BEq

/-- `QualityMetrics` as initialised by `createEmptyProgressTracker`
(`part_000:410-419`). -/
structure QualityMetrics where
  completeness : ℚ
  accuracy : ℚ
  consistency : ℚ
  timeliness : ℚ
  issues : List QualityIssue
  duplicates : ℚ
  errors : ℚ
  score : ℚ
deriving Repr, BEq

/-- `ProgressTracker` (`data.ts:61-74`). -/
structure ProgressTracker where
  totalPages : ℚ
  pagesProcessed : ℚ
  pagesSuccessful : ℚ
  pagesFailed : ℚ
  dataPointsExtracted : ℚ
  errorsEncountered : ℚ
  currentUrl : Option String := none
  lastUpdate : ℕ
  estimatedTimeRemaining : Option ℚ := none
  avgProcessingTimeMs : ℚ
  performance : PerformanceMetrics
  quality : QualityMetrics
deriving Repr, BEq

/-- `Partial<ProgressTracker>`. -/
structure PartialProgress where
  totalPages : Option ℚ := none
  pagesProcessed : Option ℚ := none
  pagesSuccessful : Option ℚ := none
  pagesFailed : Option ℚ := none
  dataPointsExtracted : Option ℚ := none
  errorsEncountered : Option ℚ := none
  currentUrl : Option String := none
  lastUpdate : Option ℕ := none
  estimatedTimeRemaining : Option ℚ := none
  avgProcessingTimeMs : Option ℚ := none
  performance : Option PerformanceMetrics := none
  quality : Option QualityMetrics := none
deriving Repr, BEq

/-- The spread `{...session.progress, ...updates}`; a nested structure
provided in the partial replaces the base one wholesale, as JS spread
does. -/
def mergeProgress (base : ProgressTracker) (p : PartialProgress) :
    ProgressTracker :=
  { totalPages := p.totalPages.getD base.totalPages,
    pagesProcessed := p.pagesProcessed.getD base.pagesProcessed,
    pagesSuccessful := p.pagesSuccessful.getD base.pagesSuccessful,
    pagesFailed := p.pagesFailed.getD base.pagesFailed,
    dataPointsExtracted := p.dataPointsExtracted.getD base.dataPointsExtracted,
    errorsEncountered := p.errorsEncountered.getD base.errorsEncountered,
    currentUrl := p.currentUrl.orElse fun _ => base.currentUrl,
    lastUpdate := p.lastUpdate.getD base.lastUpdate,
    estimatedTimeRemaining := p.estimatedTimeRemaining.orElse
      fun _ => base.estimatedTimeRemaining,
    avgProcessingTimeMs := p.avgProcessingTimeMs.getD base.avgProcessingTimeMs,
    performance := p.performance.getD base.performance,
    quality := p.quality.getD base.quality }

/-- `DataMetadata` (`data.ts:333-341`). -/
structure DataMetadata where
  totalRecords : ℚ
  fields : List String
  sources : List String
  created : ℕ
  lastModified : ℕ
  version : String
deriving Repr, BEq

/-- `DataStatistics` (`data.ts:401-410`), without the distribution map
(initialised empty and never populated by the session manager). -/
structure DataStatistics where
  recordCount : ℚ
  fieldCount : ℚ
  duplicateRecords : ℚ
  completenessRatio : ℚ
  qualityScore : ℚ
  processingTime : ℚ
  dataSize : ℚ
deriving Repr, BEq

/-- `DataStore` (`data.ts:76-83`). -/
structure DataStore where
  rawData : List Value
  cleanedData : List ProcessedData
  aggregatedData : List AggregatedData
  metadata : DataMetadata
  statistics : DataStatistics
deriving Repr, BEq

/-- `SessionMetadata` (`data.ts:148-159`). -/
structure SessionMetadata where
  userId : Option String := none
  userAgent : String
  startTime : ℕ
  endTime : Option ℕ := none
  duration : Option ℤ := none
  tags : List String
  description : Option String := none
  version : String
  environment : String
deriving Repr, BEq

/-- `ScrapeSession` (`data.ts:7-18`); timestamps are natural-number
milliseconds and the status union is kept as a string.  The optional
`browser` handle (owned by the excluded browser component) is not
modelled. -/
structure ScrapeSession where
  id : String
  configuration : SessionConfig
  progress : ProgressTracker
  data : DataStore
  metadata : SessionMetadata
  created_at : ℕ
  updated_at : ℕ
  expires_at : ℕ
  status : String
deriving Repr, BEq

/-- The `SessionManager`'s state (`part_000:23-38`): the session map (as an
insertion-ordered association list, like the JS `Map`) and the two
configured limits.  The cleanup timer and the event-subscription map are
I/O machinery outside the verified claims. -/
structure SessionManager where
  sessions : List (String × ScrapeSession)
  maxSessions : ℕ
  sessionTimeout : ℕ
deriving Repr, BEq

/-! ## Session registry operations (`src/unnamed/part_000`) -/

/-- `createEmptyProgressTracker` (`part_000:385-421`); `mem` is the
`process.memoryUsage()` reading. -/
def createEmptyProgressTracker (now : ℕ) (mem : MemoryUsage) : ProgressTracker :=
  { totalPages := 0, pagesProcessed := 0, pagesSuccessful := 0,
    pagesFailed := 0, dataPointsExtracted := 0, errorsEncountered := 0,
    lastUpdate := now, avgProcessingTimeMs := 0,
    performance :=
      { startTime := now, pagesProcessed := 0, dataPointsExtracted := 0,
        errorsEncountered := 0, averagePageLoadTime := 0, successRate := 0,
        throughputPerMinute := 0,
        memoryUsage := { start := mem, peak := mem, current := mem } },
    quality :=
      { completeness := 0, accuracy := 0, consistency := 0, timeliness := 0,
        issues := [], duplicates := 0, errors := 0, score := 0 } }

/-- `createEmptyDataStore` (`part_000:423-447`). -/
def createEmptyDataStore (now : ℕ) : DataStore :=
  { rawData := [], cleanedData := [], aggregatedData := [],
    metadata := { totalRecords := 0, fields := [], sources := [],
                  created := now, lastModified := now, version := "1.0.0" },
    statistics := { recordCount := 0, fieldCount := 0, duplicateRecords := 0,
                    completenessRatio := 0, qualityScore := 0,
                    processingTime := 0, dataSize := 0 } }

/-- `isSessionExpired` (`part_000:449-451`): `Date.now() > expires_at`,
strictly. -/
def isSessionExpired (session : ScrapeSession) (now : ℕ) : Bool :=
  now > session.expires_at

/-- `expireSession` (`part_000:294-301`): flip the status to `expired` in
place; the entry is kept. -/
def expireSession (m : SessionManager) (now : ℕ) (sessionId : String) :
    SessionManager :=
  match m.sessions.lookup sessionId with
  | some s =>
    let s' := { s with status := "expired", updated_at := now }
    { m with sessions := setAssoc m.sessions sessionId s' }
  | none => m

/-- `getSession` (`part_000:96-103`): `undefined` for unknown ids and for
lazily expired sessions (expiry applied as a side effect on the state). -/
def getSession (m : SessionManager) (now : ℕ) (sessionId : String) :
    Option ScrapeSession × SessionManager :=
  match m.sessions.lookup sessionId with
  | some s =>
    if isSessionExpired s now then (none, expireSession m now sessionId)
    else (some s, m)
  | none => (none, m)

/-- `createSession` (`part_000:43-91`): throws a capacity error when the
raw stored-session count has reached `maxSessions`; otherwise stores a
fresh session whose `expires_at` is `now + sessionTimeout`.  `sid` models
the generated `uuidv4()`, `mem` the `process.memoryUsage()` reading; the
`NODE_ENV` environment tag defaults to `development`. -/
def createSession (m : SessionManager) (now : ℕ) (sid : String)
    (userId : Option String) (config : PartialSessionConfig)
    (description : Option String) (tags : List String) (mem : MemoryUsage) :
    Except String ScrapeSession × SessionManager :=
  if m.sessions.length ≥ m.maxSessions then
    (.error ("Maximum session limit reached (" ++ toString m.maxSessions ++ ")"), m)
  else
    let expiresAt := now + m.sessionTimeout
    let userAgent :=
      match config.userAgent with
      | some ua => if ua == "" then "TanukiMCP-Scrape/1.0.0" else ua
      | none => "TanukiMCP-Scrape/1.0.0"
    let session : ScrapeSession :=
      { id := sid,
        configuration := mergeConfig {} config,
        progress := createEmptyProgressTracker now mem,
        data := createEmptyDataStore now,
        metadata := { userId := userId, userAgent := userAgent,
                      startTime := now, tags := tags,
                      description := description, version := "1.0.0",
                      environment := "development" },
        created_at := now, updated_at := now, expires_at := expiresAt,
        status := "created" }
    (.ok session, { m with sessions := setAssoc m.sessions sid session })

/-- The shared shape of the five session-mutating methods of
`SessionManager` (`part_000:108-217`): read through `getSession` (applying
lazy expiry), throw not-found for an absent or expired id, otherwise store
the rewritten session back under the same id. -/
def modifySession (m : SessionManager) (now : ℕ) (sessionId : String)
    (f : ScrapeSession → ScrapeSession) :
    Except String Unit × SessionManager :=
  match getSession m now sessionId with
  | (none, m2) => (.error ("Session " ++ sessionId ++ " not found"), m2)
  | (some s, m2) =>
    (.ok (), { m2 with sessions := setAssoc m2.sessions sessionId (f s) })

/-- `updateSessionConfig` (`part_000:108-119`): not-found (or expired) ids
throw; otherwise merge the partial configuration, bump `updated_at`, and
unconditionally set the status to `configuring`. -/
def updateSessionConfig (m : SessionManager) (now : ℕ) (sessionId : String)
    (config : PartialSessionConfig) : Except String Unit × SessionManager :=
  modifySession m now sessionId fun s =>
    { s with configuration := mergeConfig s.configuration config,
             updated_at := now, status := "configuring" }

/-- `updatePerformanceMetrics` (`part_000:453-470`), applied to the already
merged session (the JS version reads the same aliased object back out of
the map). -/
def updatePerformanceMetricsOn (s : ScrapeSession) (now : ℕ)
    (mem : MemoryUsage) : ScrapeSession :=
  let duration := (now : ℚ) - (s.progress.performance.startTime : ℚ)
  let minutes := duration / 60000
  let perf := { s.progress.performance with
    throughputPerMinute :=
      if minutes > 0 then s.progress.pagesProcessed / minutes else 0,
    successRate :=
      if s.progress.pagesProcessed > 0 then
        s.progress.pagesSuccessful / s.progress.pagesProcessed
      else 0,
    memoryUsage := { s.progress.performance.memoryUsage with current := mem } }
  { s with progress := { s.progress with performance := perf } }

/-- `updateProgress` (`part_000:124-144`): merge the partial tracker, stamp
`lastUpdate` and `updated_at`, and recompute the performance metrics when
the update carries a truthy `pagesProcessed`. -/
def updateProgress (m : SessionManager) (now : ℕ) (sessionId : String)
    (updates : PartialProgress) (mem : MemoryUsage) :
    Except String Unit × SessionManager :=
  modifySession m now sessionId fun s =>
    let prog := { mergeProgress s.progress updates with lastUpdate := now }
    let s1 := { s with progress := prog, updated_at := now }
    match updates.pagesProcessed with
    | some q => if q != 0 then updatePerformanceMetricsOn s1 now mem else s1
    | none => s1

/-- `setSessionStatus` (`part_000:149-180`): set the status and
`updated_at`; a `completed`/`failed` status also stamps `endTime` and
derives `duration`.  (Event emission, pure callback I/O, is not
modelled.) -/
def setSessionStatus (m : SessionManager) (now : ℕ) (sessionId : String)
    (status : String) : Except String Unit × SessionManager :=
  modifySession m now sessionId fun s =>
    let s1 := { s with status := status, updated_at := now }
    if status == "completed" || status == "failed" then
      { s1 with metadata := { s1.metadata with
          endTime := some now,
          duration := some ((now : ℤ) - (s1.metadata.startTime : ℤ)) } }
    else s1

/-- `addExtractedData` (`part_000:185-197`): append to the raw buffer and
bump the data-point counter. -/
def addExtractedData (m : SessionManager) (now : ℕ) (sessionId : String)
    (d : Value) : Except String Unit × SessionManager :=
  modifySession m now sessionId fun s =>
    { s with
      data := { s.data with rawData := s.data.rawData ++ [d] },
      progress := { s.progress with
        dataPointsExtracted := s.progress.dataPointsExtracted + 1 },
      updated_at := now }

/-- `recordError` (`part_000:202-217`): bump the error counter; a fatal
error also fails the session and stamps `endTime`.  (The error text itself
only feeds the unmodelled event emission.) -/
def recordError (m : SessionManager) (now : ℕ) (sessionId : String)
    (_err : String) (fatal : Bool) : Except String Unit × SessionManager :=
  modifySession m now sessionId fun s =>
    let s1 := { s with
      progress := { s.progress with
        errorsEncountered := s.progress.errorsEncountered + 1 },
      updated_at := now }
    if fatal then
      { s1 with status := "failed",
                metadata := { s1.metadata with endTime := some now } }
    else s1

/-- The session-mutating operations of the registry contract surface, for
quantifying over arbitrary interleavings of activity on a session. -/
inductive SessionOp where
  | updateConfig (sessionId : String) (config : PartialSessionConfig)
  | updateProg (sessionId : String) (updates : PartialProgress) (mem : MemoryUsage)
  | setStatus (sessionId : String) (status : String)
  | addData (sessionId : String) (d : Value)
  | recError (sessionId : String) (err : String) (fatal : Bool)

/-- Run one operation at a given wall-clock time, keeping the resulting
registry state whether the call succeeded or threw. -/
def runOp (m : SessionManager) (now : ℕ) : SessionOp → SessionManager
  | .updateConfig sid cfg => (updateSessionConfig m now sid cfg).2
  | .updateProg sid upd mem => (updateProgress m now sid upd mem).2
  | .setStatus sid st => (setSessionStatus m now sid st).2
  | .addData sid d => (addExtractedData m now sid d).2
  | .recError sid e f => (recordError m now sid e f).2

/-- Run a sequence of timestamped operations. -/
def runOps (m : SessionManager) : List (ℕ × SessionOp) → SessionManager
  | [] => m
  | (t, op) :: rest => runOps (runOp m t op) rest

/-- Modelled from the spec: the "live-session count (post lazy-expiry
filtering)" that §4.7/§8 say the capacity check uses — the number of stored
sessions that are not expired at `now`.  This definition follows the
spec's words (for comparison against `createSession`); the source's check
reads the raw `sessions.size`. -/
def liveSessionCount (m : SessionManager) (now : ℕ) : ℕ :=
  (m.sessions.filter fun p => !isSessionExpired p.2 now).length

/-! ## Concrete instantiations of the external facilities

Used by the concrete-input theorems and witnesses.  `envW`'s regex engine
throws on the single pattern `"("` (an invalid regular expression, as in
JS) and matches nothing else; every parser fails. -/

def envW : JsEnv :=
  { regexTest := fun p _ =>
      if p == "(" then .error "Invalid regular expression" else .ok false,
    regexReplaceAll := fun _ _ s => .ok s,
    dateParseOk := fun _ => false,
    dateParseValOk := fun _ => false,
    urlOk := fun _ => false,
    parseFloatNum := fun _ => none,
    numFromString := fun _ => none,
    mathSqrt := fun _ => 0,
    dateIso := fun _ => "",
    dateShort := fun _ => "" }

def memW : MemoryUsage :=
  { rss := 0, heapTotal := 0, heapUsed := 0, ext := 0, arrayBuffers := 0 }

def idsW : ℕ → String := fun k => "id" ++ toString k

/-- Extract the payload of a successful `Except`, with a default for the
error case (used to name concrete computation results in witnesses). -/
def okOr {α : Type} (d : α) : Except String α → α
  | .ok a => a
  | .error _ => d

def dqDefault : DataQuality :=
  { completeness := 0, accuracy := 0, consistency := 0, timeliness := 0,
    issues := [] }

def pdDefault : ProcessedData :=
  { id := "", originalId := "", processed := [], transformations := [],
    quality := dqDefault, timestamp := 0 }

/-! # Claims

One theorem per claim of the specification, in claim order, each preceded
by helper lemmas where needed. -/

/-! ## C3 — the median of an even-length list -/

/-- C3, counterexample: on the values `[1, 2]` the source computes the
median `sorted[⌊2/2⌋] = sorted[1] = 2`, while the claim's lower-middle
element `sorted[2/2 - 1] = sorted[0]` is `1`; the reported median is not
the lower-middle element. -/
theorem median_counterexample :
    (calculateNumericStatistics envW [1, 2]).median = some 2 ∧
    (List.insertionSort (· ≤ ·) [(1 : ℚ), 2]).getD (2 / 2 - 1) 0 = 1 ∧
    (calculateNumericStatistics envW [1, 2]).median ≠ some 1 := by
  refine ⟨?_, ?_, ?_⟩ <;> decide

/-- C3 (amended): for every non-empty list of numeric values of even
length, the reported median is the element at index `length / 2` of the
ascending sort — the upper-middle element — and in particular is one of
the values. -/
theorem median_is_upper_middle (env : JsEnv) (values : List ℚ)
    (hne : values ≠ []) (_heven : values.length % 2 = 0) :
    (calculateNumericStatistics env values).median =
      some ((values.insertionSort (· ≤ ·)).getD (values.length / 2) 0) ∧
    (values.insertionSort (· ≤ ·)).getD (values.length / 2) 0 ∈ values := by
  have hlen : values.length ≠ 0 := by simpa using hne
  constructor
  · simp only [calculateNumericStatistics, hlen, if_false]
    rw [List.length_insertionSort]
  · have hsl : (values.insertionSort (· ≤ ·)).length = values.length :=
      List.length_insertionSort _ _
    have hidx : values.length / 2 < (values.insertionSort (· ≤ ·)).length := by
      rw [hsl]; exact Nat.div_lt_self (Nat.pos_of_ne_zero hlen) one_lt_two
    rw [List.getD_eq_getElem?_getD, List.getElem?_eq_getElem hidx]
    exact (List.perm_insertionSort (· ≤ ·) values).mem_iff.mp
      (List.getElem_mem hidx)

/-- C3, witness: on `[1, 2, 3, 4]` the amended theorem applies and the
median is the upper-middle element `3`. -/
theorem median_is_upper_middle_witness :
    (calculateNumericStatistics envW [1, 2, 3, 4]).median =
      some ((List.insertionSort (· ≤ ·) [(1 : ℚ), 2, 3, 4]).getD
        ([(1 : ℚ), 2, 3, 4].length / 2) 0) ∧
    (List.insertionSort (· ≤ ·) [(1 : ℚ), 2, 3, 4]).getD
        ([(1 : ℚ), 2, 3, 4].length / 2) 0 ∈ [(1 : ℚ), 2, 3, 4] :=
  median_is_upper_middle envW [1, 2, 3, 4] (by decide) (by decide)

/-! ## C1 — aggregation of `[{x:1},{x:2},{x:3}]` -/

/-- A neutral quality bundle for building concrete `ProcessedData`. -/
def qW : DataQuality :=
  { completeness := 1, accuracy := 0, consistency := 1, timeliness := 1,
    issues := [] }

/-- A concrete processed record `{x: q}`. -/
def pdX (i o : String) (q : ℚ) : ProcessedData :=
  { id := i, originalId := o, processed := [("x", .num q)],
    transformations := [], quality := qW, timestamp := 0 }

/-- The records `[{x:1},{x:2},{x:3}]` of the claim. -/
def pds3 : List ProcessedData :=
  [pdX "p1" "o1" 1, pdX "p2" "o2" 2, pdX "p3" "o3" 3]

def ruleSumX : AggregationRule := { fields := ["x"], operation := "sum" }

def ruleAvgX : AggregationRule := { fields := ["x"], operation := "average" }

def ruleCountX : AggregationRule := { fields := ["x"], operation := "count" }

/-- C1, counterexample: with records `[{x:1},{x:2},{x:3}]` and the rule
`{fields:['x'], operation:'sum'}`, the grouping key is the stringified
value of `x` itself, so `aggregateData` emits three singleton groups — not
one default group — and no output row has `aggregated.x = 6`. -/
theorem aggregateData_sum_counterexample :
    (aggregateData envW idsW 0 pds3 [ruleSumX]).length = 3 ∧
    ((aggregateData envW idsW 0 pds3 [ruleSumX]).map
        fun a => getField a.aggregated "x") = [.num 1, .num 2, .num 3] ∧
    ¬ ∃ a ∈ aggregateData envW idsW 0 pds3 [ruleSumX],
        getField a.aggregated "x" = .num 6 := by
  have hmap : ((aggregateData envW idsW 0 pds3 [ruleSumX]).map
      fun a => getField a.aggregated "x") = [.num 1, .num 2, .num 3] := by
    simp [aggregateData, groupDataForAggregation, insertGroup, pds3, pdX,
      ruleSumX, extractFieldValue, extractFieldValuePath, splitOnChar,
      applyAggregation, numOrZero, jsToNumber, setAssoc, getField, jsToString,
      jsNumToString, jsStrictEq, envW, idsW, List.lookup, List.enum,
      List.enumFrom, List.map, List.filter, List.foldl, List.any, Option.getD,
      Option.isSome]
  have hlen : (aggregateData envW idsW 0 pds3 [ruleSumX]).length = 3 := by
    have h := congrArg List.length hmap
    simpa using h
  refine ⟨hlen, hmap, ?_⟩
  rintro ⟨a, ha, hx⟩
  have hmem : getField a.aggregated "x" ∈
      (aggregateData envW idsW 0 pds3 [ruleSumX]).map
        (fun a => getField a.aggregated "x") :=
    List.mem_map_of_mem _ ha
  rw [hmap, hx] at hmem
  have : ¬ ((6 : ℚ) = 1 ∨ (6 : ℚ) = 2 ∨ (6 : ℚ) = 3) := by norm_num
  simp only [List.mem_cons, List.not_mem_nil, or_false, Value.num.injEq] at hmem
  exact this hmem

/-- C1 (amended): with records `[{x:1},{x:2},{x:3}]` and a first rule on
field `x`, grouping keys are the stringified `x` values `'1','2','3'`,
producing three singleton groups; per group, `sum` and `average` yield
that record's own `x` value and `count` yields `1`. -/
theorem aggregateData_per_value_groups :
    ((groupDataForAggregation pds3 [ruleSumX]).map Prod.fst) = ["1", "2", "3"] ∧
    ((aggregateData envW idsW 0 pds3 [ruleSumX]).map
        fun a => (a.sourceIds, getField a.aggregated "x")) =
      [(["p1"], .num 1), (["p2"], .num 2), (["p3"], .num 3)] ∧
    ((aggregateData envW idsW 0 pds3 [ruleAvgX]).map
        fun a => getField a.aggregated "x") = [.num 1, .num 2, .num 3] ∧
    ((aggregateData envW idsW 0 pds3 [ruleCountX]).map
        fun a => getField a.aggregated "x") = [.num 1, .num 1, .num 1] := by
  refine ⟨rfl, ?_, ?_, ?_⟩ <;>
    simp [aggregateData, groupDataForAggregation, insertGroup, pds3, pdX,
      ruleSumX, ruleAvgX, ruleCountX, extractFieldValue, extractFieldValuePath,
      splitOnChar, applyAggregation, numOrZero, jsToNumber, setAssoc, getField,
      jsToString, jsNumToString, jsStrictEq, envW, idsW, listMin, listMax,
      List.lookup, List.enum, List.enumFrom, List.map, List.filter, List.foldl,
      List.any, Option.getD, Option.isSome]

/-! ## C9 and C4 — quality ratios -/

/-- The completed and consistent counters of `assessLoop` count exactly the
entries passing `hasValue` resp. `isValueConsistent`. -/
theorem assessLoop_counts (env : JsEnv) (vrules : List ValidationRule) :
    ∀ (entries : List (String × Value)) (c a k : ℕ) (iss : List QualityIssue),
      assessLoop env vrules entries = .ok (c, a, k, iss) →
      c = (entries.filter fun p => hasValue p.2).length ∧
      k = (entries.filter fun p => isValueConsistent p.2).length := by
  intro entries
  induction entries with
  | nil =>
    intro c a k iss h
    simp only [assessLoop, Except.ok.injEq, Prod.mk.injEq] at h
    obtain ⟨hc, -, hk, -⟩ := h
    simp [← hc, ← hk]
  | cons p rest ih =>
    intro c a k iss h
    obtain ⟨f, v⟩ := p
    rcases hv : hasValue v <;> rcases hcons : isValueConsistent v <;>
      simp only [assessLoop, hv, hcons, Bool.false_eq_true, if_false,
        if_true] at h <;>
      · cases hE : evalFieldRules env f v (vrules.filter (ruleAppliesTo f)) with
        | error e => rw [hE] at h; exact absurd h (by simp)
        | ok pa =>
          rw [hE] at h
          obtain ⟨a1, i2⟩ := pa
          cases hR : assessLoop env vrules rest with
          | error e => rw [hR] at h; exact absurd h (by simp)
          | ok q4 =>
            rw [hR] at h
            obtain ⟨c1, a2, k2, i4⟩ := q4
            obtain ⟨hc1, hk1⟩ := ih c1 a2 k2 i4 hR
            simp only [Except.ok.injEq, Prod.mk.injEq] at h
            obtain ⟨hcEq, -, hkEq, -⟩ := h
            subst hcEq
            subst hkEq
            constructor <;>
              simp [List.filter_cons, hv, hcons, hc1, hk1] <;> omega

/-- A raw record `{a: 5, b: ""}`. -/
def rwRec2 (i : String) : ExtractedData :=
  { id := i, url := "", timestamp := 0,
    raw := [("a", .num 5), ("b", .str "")] }

/-- For every field map and rule list on which the quality assessment
succeeds, `completeness` equals exactly the number of fields whose value is
neither `null`, `undefined` nor the empty string, divided by the total
field count, and lies in `[0, 1]`. -/
theorem assess_completeness_ratio (env : JsEnv) (data : FieldMap)
    (vrules : List ValidationRule) (q : DataQuality)
    (h : assessDataQuality env data vrules = .ok q) :
    q.completeness =
      ((data.filter fun p => hasValue p.2).length : ℚ) / (data.length : ℚ) ∧
    0 ≤ q.completeness ∧ q.completeness ≤ 1 := by
  unfold assessDataQuality at h
  cases hL : assessLoop env vrules data with
  | error e => rw [hL] at h; exact absurd h (by simp)
  | ok res =>
    rw [hL] at h
    obtain ⟨c, a, k, iss⟩ := res
    obtain ⟨hc, -⟩ := assessLoop_counts env vrules data c a k iss hL
    simp only [Except.ok.injEq] at h
    subst h
    subst hc
    have hfil : ((data.filter fun p => hasValue p.2).length : ℚ) ≤
        (data.length : ℚ) := by
      exact_mod_cast List.length_filter_le _ _
    by_cases hn : data.length > 0
    · have hpos : (0 : ℚ) < (data.length : ℚ) := by exact_mod_cast hn
      refine ⟨by simp [hn], ?_, ?_⟩
      · simp only [hn, if_true]
        positivity
      · simp only [hn, if_true]
        exact (div_le_one hpos).mpr hfil
    · have h0 : data.length = 0 := by omega
      have hd : data = [] := List.length_eq_zero.mp h0
      subst hd
      simp

/-- C4, counterexample: on the one-field map `{a: 5}` with two `required`
rules that apply to every field, both rule evaluations pass, so
`accuracy = 2/1 = 2 > 1` — the accuracy ratio is not bounded by 1. -/
theorem accuracy_above_one_counterexample :
    (okOr dqDefault (assessDataQuality envW [("a", .num 5)]
        [{ type := "required" }, { type := "required" }])).accuracy = 2 ∧
    ¬ (okOr dqDefault (assessDataQuality envW [("a", .num 5)]
        [{ type := "required" }, { type := "required" }])).accuracy ≤ 1 := by
  have h : (okOr dqDefault (assessDataQuality envW [("a", .num 5)]
      [{ type := "required" }, { type := "required" }])).accuracy = (2 : ℚ) / 1 := by
    simp [assessDataQuality, assessLoop, evalFieldRules, validateFieldValue,
      ruleAppliesTo, hasValue, isValueConsistent, okOr, envW, List.filter]
  rw [h]
  norm_num

/-- C4 (amended): for every cleaned field map and rule list on which the
assessment succeeds, `completeness`, `consistency` and `timeliness` lie in
`[0, 1]` (timeliness is exactly 1), and `accuracy` is non-negative — but
`accuracy` is not bounded by 1, since its numerator counts rule
evaluations while its denominator counts fields. -/
theorem quality_ratio_bounds (env : JsEnv) (data : FieldMap)
    (vrules : List ValidationRule) (q : DataQuality)
    (h : assessDataQuality env data vrules = .ok q) :
    0 ≤ q.completeness ∧ q.completeness ≤ 1 ∧
    0 ≤ q.consistency ∧ q.consistency ≤ 1 ∧
    q.timeliness = 1 ∧ 0 ≤ q.accuracy := by
  unfold assessDataQuality at h
  cases hL : assessLoop env vrules data with
  | error e => rw [hL] at h; exact absurd h (by simp)
  | ok res =>
    rw [hL] at h
    obtain ⟨c, a, k, iss⟩ := res
    obtain ⟨hc, hk⟩ := assessLoop_counts env vrules data c a k iss hL
    simp only [Except.ok.injEq] at h
    subst h
    by_cases hn : data.length > 0
    · have hpos : (0 : ℚ) < (data.length : ℚ) := by exact_mod_cast hn
      refine ⟨?_, ?_, ?_, ?_, rfl, ?_⟩ <;> simp only [hn, if_true]
      · positivity
      · refine (div_le_one hpos).mpr ?_
        subst hc
        exact_mod_cast List.length_filter_le _ _
      · positivity
      · refine (div_le_one hpos).mpr ?_
        subst hk
        exact_mod_cast List.length_filter_le _ _
      · positivity
    · simp [hn]

/-- C4, witness: the bounds theorem applied to the concrete assessment of
`{a: 5}` under no validation rules. -/
theorem quality_ratio_bounds_witness :
    0 ≤ (okOr dqDefault (assessDataQuality envW [("a", .num 5)] [])).completeness ∧
    (okOr dqDefault (assessDataQuality envW [("a", .num 5)] [])).completeness ≤ 1 ∧
    0 ≤ (okOr dqDefault (assessDataQuality envW [("a", .num 5)] [])).consistency ∧
    (okOr dqDefault (assessDataQuality envW [("a", .num 5)] [])).consistency ≤ 1 ∧
    (okOr dqDefault (assessDataQuality envW [("a", .num 5)] [])).timeliness = 1 ∧
    0 ≤ (okOr dqDefault (assessDataQuality envW [("a", .num 5)] [])).accuracy :=
  quality_ratio_bounds envW [("a", .num 5)] []
    (okOr dqDefault (assessDataQuality envW [("a", .num 5)] [])) rfl

/-- C9: for every `ProcessedData` the pipeline's per-record step produces,
`quality.completeness` equals exactly the number of fields of the cleaned
map whose value is neither `null`, `undefined` nor the empty string,
divided by the total field count of the cleaned map — and hence lies in
`[0, 1]`. -/
theorem processed_completeness_exact_ratio (env : JsEnv) (rid : String)
    (now : ℕ) (cr : List CleaningRule) (vr : List ValidationRule)
    (raw : ExtractedData) (p : ProcessedData)
    (h : tryProcessRecord env rid now cr vr raw = .ok p) :
    p.quality.completeness =
      ((p.processed.filter fun q => hasValue q.2).length : ℚ) /
        (p.processed.length : ℚ) ∧
    0 ≤ p.quality.completeness ∧ p.quality.completeness ≤ 1 := by
  unfold tryProcessRecord at h
  cases hC : applyCleaningRules env raw.raw cr with
  | error e => rw [hC] at h; exact absurd h (by simp)
  | ok pr =>
    rw [hC] at h
    obtain ⟨cleaned, ts⟩ := pr
    simp only [] at h
    cases hQ : assessDataQuality env cleaned vr with
    | error e => rw [hQ] at h; exact absurd h (by simp)
    | ok q =>
      rw [hQ] at h
      simp only [] at h
      have hp : { id := rid, originalId := raw.id, processed := cleaned,
                  transformations := ts, quality := q,
                  timestamp := now : ProcessedData } = p := Except.ok.inj h
      have hproc : p.processed = cleaned := by rw [← hp]
      have hqual : p.quality = q := by rw [← hp]
      rw [hproc, hqual]
      exact assess_completeness_ratio env cleaned vr q hQ

/-- C9, witness: the exact-ratio theorem applied to the record
`{a: 5, b: ""}` processed under no rules: completeness is `1/2`. -/
theorem processed_completeness_exact_ratio_witness :
    (okOr pdDefault (tryProcessRecord envW "p1" 0 [] []
        (rwRec2 "r9"))).quality.completeness =
      (((okOr pdDefault (tryProcessRecord envW "p1" 0 [] []
          (rwRec2 "r9"))).processed.filter fun q => hasValue q.2).length : ℚ) /
        (((okOr pdDefault (tryProcessRecord envW "p1" 0 [] []
          (rwRec2 "r9"))).processed.length : ℚ)) ∧
    0 ≤ (okOr pdDefault (tryProcessRecord envW "p1" 0 [] []
        (rwRec2 "r9"))).quality.completeness ∧
    (okOr pdDefault (tryProcessRecord envW "p1" 0 [] []
        (rwRec2 "r9"))).quality.completeness ≤ 1 :=
  processed_completeness_exact_ratio envW "p1" 0 [] [] (rwRec2 "r9")
    (okOr pdDefault (tryProcessRecord envW "p1" 0 [] [] (rwRec2 "r9"))) rfl

/-! ## C7 — type-specificity monotonicity of schema inference -/

/-- Locate a schema field by name (first match, as the JS `Map` key
lookup). -/
def findField (fields : List SchemaField) (fname : String) :
    Option SchemaField :=
  fields.find? fun f => f.name == fname

/-- `find?` by name commutes with mapping a name-preserving function. -/
theorem findField_map_of_name_preserving (g : SchemaField → SchemaField)
    (hg : ∀ x, (g x).name = x.name) (l : List SchemaField) (fname : String) :
    findField (l.map g) fname = (findField l fname).map g := by
  unfold findField
  have hpred : ((fun f : SchemaField => f.name == fname) ∘ g) =
      (fun f : SchemaField => f.name == fname) := by
    funext x
    simp [Function.comp, hg]
  rw [List.find?_map, hpred]

/-- One entry pass of the schema inference keeps every located field
present with the same name and a type whose specificity index never
decreases. -/
theorem findField_schemaUpdateEntry_mono (env : JsEnv)
    (fs : List SchemaField) (p : String × Value) (fname : String)
    (f : SchemaField) (h : findField fs fname = some f) :
    ∃ f', findField (schemaUpdateEntry env fs p) fname = some f' ∧
      f'.name = f.name ∧
      jsIndexOf specificity f.type ≤ jsIndexOf specificity f'.type := by
  unfold schemaUpdateEntry
  set g : SchemaField → SchemaField := fun x =>
    if x.name == p.1 then
      if isMoreSpecificType (inferFieldType env p.2) x.type then
        { x with type := inferFieldType env p.2 }
      else x
    else x with hgdef
  have hg : ∀ x, (g x).name = x.name := by
    intro x
    simp only [hgdef]
    split <;> [skip; rfl]
    split <;> rfl
  have hmono : ∀ x, jsIndexOf specificity x.type ≤
      jsIndexOf specificity (g x).type := by
    intro x
    simp only [hgdef]
    split
    · split
      · rename_i hs
        simp only [isMoreSpecificType, decide_eq_true_eq] at hs
        exact le_of_lt hs
      · exact le_refl _
    · exact le_refl _
  have hins : findField
      (if fs.any (fun f => f.name == p.1) then fs
       else fs ++ [{ name := p.1, type := inferFieldType env p.2,
                     required := false,
                     description := "Auto-inferred field: " ++ p.1,
                     validation := [] }]) fname = some f := by
    split
    · exact h
    · unfold findField at h ⊢
      rw [List.find?_append, h]
      rfl
  refine ⟨g f, ?_, hg f, hmono f⟩
  rw [findField_map_of_name_preserving g hg _ fname, hins]
  rfl

/-- Monotone presence through the per-record entry fold. -/
theorem findField_foldl_entries_mono (env : JsEnv)
    (entries : List (String × Value)) :
    ∀ (fs : List SchemaField) (fname : String) (f : SchemaField),
      findField fs fname = some f →
      ∃ f', findField (entries.foldl (schemaUpdateEntry env) fs) fname = some f' ∧
        jsIndexOf specificity f.type ≤ jsIndexOf specificity f'.type := by
  induction entries with
  | nil => intro fs fname f h; exact ⟨f, h, le_refl _⟩
  | cons p rest ih =>
    intro fs fname f h
    obtain ⟨f1, h1, -, hle1⟩ := findField_schemaUpdateEntry_mono env fs p fname f h
    obtain ⟨f2, h2, hle2⟩ := ih (schemaUpdateEntry env fs p) fname f1 h1
    exact ⟨f2, h2, le_trans hle1 hle2⟩

/-- Monotone presence through the batch fold. -/
theorem findField_foldl_records_mono (env : JsEnv)
    (recs : List ProcessedData) :
    ∀ (fs : List SchemaField) (fname : String) (f : SchemaField),
      findField fs fname = some f →
      ∃ f', findField
          (recs.foldl (fun fs r => schemaUpdateRecord env fs r.processed) fs)
          fname = some f' ∧
        jsIndexOf specificity f.type ≤ jsIndexOf specificity f'.type := by
  induction recs with
  | nil => intro fs fname f h; exact ⟨f, h, le_refl _⟩
  | cons r rest ih =>
    intro fs fname f h
    obtain ⟨f1, h1, hle1⟩ :=
      findField_foldl_entries_mono env r.processed fs fname f h
    obtain ⟨f2, h2, hle2⟩ := ih (schemaUpdateRecord env fs r.processed) fname f1 h1
    exact ⟨f2, h2, le_trans hle1 hle2⟩

/-- C7: once schema inference has classified a field at some specificity
rank, processing any further records never yields a schema whose type for
that field has a lower rank in
`string < date < phone < email < url < number < boolean < array < object`
— the field stays present and its rank can only grow. -/
theorem inferDataSchema_type_monotone (env : JsEnv)
    (recs more : List ProcessedData) (fname : String) (f : SchemaField)
    (h : findField (inferDataSchema env recs).fields fname = some f) :
    ∃ f', findField (inferDataSchema env (recs ++ more)).fields fname = some f' ∧
      jsIndexOf specificity f.type ≤ jsIndexOf specificity f'.type := by
  unfold inferDataSchema at h ⊢
  have hrname : ∀ (data : List ProcessedData) (x : SchemaField),
      (requiredMark data x).name = x.name := fun _ _ => rfl
  rw [findField_map_of_name_preserving (requiredMark recs) (hrname recs) _ fname] at h
  cases h0 : findField
      (recs.foldl (fun fs r => schemaUpdateRecord env fs r.processed) [])
      fname with
  | none => rw [h0] at h; exact absurd h (by simp)
  | some f0 =>
    rw [h0] at h
    rw [Option.map_some'] at h
    have hf : requiredMark recs f0 = f := Option.some.inj h
    have hty : f.type = f0.type := by rw [← hf]; rfl
    rw [List.foldl_append]
    obtain ⟨f1, h1, hle⟩ := findField_foldl_records_mono env more
      (recs.foldl (fun fs r => schemaUpdateRecord env fs r.processed) [])
      fname f0 h0
    refine ⟨requiredMark (recs ++ more) f1, ?_, ?_⟩
    · rw [findField_map_of_name_preserving (requiredMark (recs ++ more))
        (hrname (recs ++ more)) _ fname, h1]
      rfl
    · have h2 : (requiredMark (recs ++ more) f1).type = f1.type := rfl
      rw [h2, hty]
      exact hle

def sfDefault : SchemaField :=
  { name := "", type := "string", required := false, description := "",
    validation := [] }

/-- A processed record whose field `e` holds an email-shaped string. -/
def peEmail : ProcessedData :=
  { id := "q1", originalId := "r1", processed := [("e", .str "a@b.c")],
    transformations := [], quality := qW, timestamp := 0 }

/-- A processed record whose field `e` holds a plain string. -/
def peString : ProcessedData :=
  { id := "q2", originalId := "r2", processed := [("e", .str "hello")],
    transformations := [], quality := qW, timestamp := 0 }

/-- The schema field inferred for `e` from the email-bearing record. -/
def feW : SchemaField :=
  (findField (inferDataSchema envW [peEmail]).fields "e").getD sfDefault

/-- C7, witness: after classifying `e` as `email`, a later plain-string
record does not lower the field's specificity rank. -/
theorem inferDataSchema_type_monotone_witness :
    findField (inferDataSchema envW [peEmail]).fields "e" = some feW ∧
    feW.type = "email" ∧
    jsIndexOf specificity feW.type ≤ jsIndexOf specificity
      ((findField (inferDataSchema envW [peEmail, peString]).fields "e").getD
        sfDefault).type := by
  obtain ⟨f', hf, hle⟩ :=
    inferDataSchema_type_monotone envW [peEmail] [peString] "e" feW rfl
  have hfind : findField (inferDataSchema envW [peEmail, peString]).fields "e" =
      some f' := hf
  refine ⟨rfl, rfl, ?_⟩
  rw [hfind]
  simpa using hle

/-! ## C8 — condition gating of cleaning rules -/

/-- C8: a rule fires only when all of its conditions match — the condition
loop yields `true` exactly when every single condition evaluates to `true`
(AND semantics, each condition carrying its own negation) — and in
particular a rule conditioned on `{field:'status', operator:'equals',
value:'active'}` does nothing on a record whose `status` is not `'active'`:
the cleaned map is returned unchanged and no transformation is recorded. -/
theorem cleaning_rule_condition_gating (env : JsEnv) (data : FieldMap)
    (conds : List CleaningCondition) (rule : CleaningRule)
    (hc : rule.conditions =
      some [{ field := "status", operator := "equals", value := .str "active" }])
    (hne : jsStrictEq (getField data "status") (.str "active") = false) :
    (matchesConditions env data conds = .ok true ↔
      ∀ c ∈ conds, evalCondition env data c = .ok true) ∧
    applyCleaningRules env data [rule] = .ok (data, []) := by
  constructor
  · induction conds with
    | nil => simp [matchesConditions]
    | cons c cs ih =>
      cases hE : evalCondition env data c with
      | error e =>
        simp only [matchesConditions, hE]
        constructor
        · intro hcontra; exact absurd hcontra (by simp)
        · intro hall
          have := hall c (by simp)
          rw [hE] at this
          exact absurd this (by simp)
      | ok m =>
        cases m with
        | true =>
          simp only [matchesConditions, hE, if_true]
          rw [ih]
          constructor
          · intro hall c' hc'
            rcases List.mem_cons.mp hc' with h1 | h2
            · subst h1; exact hE
            · exact hall c' h2
          · intro hall c' hc'
            exact hall c' (List.mem_cons_of_mem _ hc')
        | false =>
          simp only [matchesConditions, hE, if_false]
          constructor
          · intro hcontra; exact absurd hcontra (by simp)
          · intro hall
            have := hall c (by simp)
            rw [hE] at this
            exact absurd this (by simp)
  · simp [applyCleaningRules, hc, matchesConditions, evalCondition,
      evalConditionRaw, hne]

def condStatusActive : CleaningCondition :=
  { field := "status", operator := "equals", value := .str "active" }

def ruleTrimV : CleaningRule :=
  { field := "v", operation := "trim", parameters := [],
    conditions := some [condStatusActive] }

def dataInactive : FieldMap :=
  [("status", .str "inactive"), ("v", .str " x ")]

/-- C8, witness: on the record `{status:'inactive', v:' x '}` the
equals-`'active'` condition fails, the AND-semantics equivalence holds for
that condition list, and the trim rule leaves the map untouched with no
transformation recorded. -/
theorem cleaning_rule_condition_gating_witness :
    (matchesConditions envW dataInactive [condStatusActive] = .ok true ↔
      ∀ c ∈ [condStatusActive], evalCondition envW dataInactive c = .ok true) ∧
    applyCleaningRules envW dataInactive [ruleTrimV] = .ok (dataInactive, []) :=
  cleaning_rule_condition_gating envW dataInactive [condStatusActive] ruleTrimV
    rfl rfl

/-! ## C6 — batch resilience of `processData` -/

/-- C6: in a batch of five records where processing of record #3 throws and
the others succeed, `processData` returns the four successful records in
input order, records exactly one error keyed by record #3's id, and the job
still finishes `completed` — the thrown error never aborts the batch. -/
theorem processData_batch_resilience (env : JsEnv) (ids : ℕ → String)
    (now : ℕ) (sid : String) (cr : List CleaningRule)
    (vr : List ValidationRule) (r1 r2 r3 r4 r5 : ExtractedData)
    (p1 p2 p4 p5 : ProcessedData) (e : String)
    (h1 : tryProcessRecord env (ids 1) now cr vr r1 = .ok p1)
    (h2 : tryProcessRecord env (ids 2) now cr vr r2 = .ok p2)
    (h3 : tryProcessRecord env (ids 3) now cr vr r3 = .error e)
    (h4 : tryProcessRecord env (ids 4) now cr vr r4 = .ok p4)
    (h5 : tryProcessRecord env (ids 5) now cr vr r5 = .ok p5) :
    (processData env ids now sid [r1, r2, r3, r4, r5] cr vr).1 =
      [p1, p2, p4, p5] ∧
    (processData env ids now sid [r1, r2, r3, r4, r5] cr vr).2.errors =
      [{ recordId := r3.id, error := e, timestamp := now }] ∧
    (processData env ids now sid [r1, r2, r3, r4, r5] cr vr).2.status =
      "completed" := by
  refine ⟨?_, ?_, ?_⟩ <;>
    simp [processData, processLoop, h1, h2, h3, h4, h5]

/-- A raw record `{f: v}`. -/
def rwRec (i : String) (v : Value) : ExtractedData :=
  { id := i, url := "", timestamp := 0, raw := [("f", v)] }

/-- A cleaning rule whose `matches` condition carries the invalid regex
pattern `"("`: the pattern only reaches the regex engine when field `f`
holds a string, and then throws. -/
def crThrow : List CleaningRule :=
  [{ field := "g", operation := "trim", parameters := [],
     conditions := some [{ field := "f", operator := "matches",
                           value := .str "(" }] }]

/-- The processed record `tryProcessRecord` produces for a raw record under
`crThrow` (when it succeeds). -/
def pwRec (rid : String) (r : ExtractedData) : ProcessedData :=
  okOr pdDefault (tryProcessRecord envW rid 0 crThrow [] r)

/-- C6, witness: five records whose field `f` is numeric except record #3,
whose string field makes the condition regex throw; the batch returns the
other four records and one error for `r3`. -/
theorem processData_batch_resilience_witness :
    (processData envW idsW 0 "s"
        [rwRec "r1" (.num 1), rwRec "r2" (.num 2), rwRec "r3" (.str "x"),
         rwRec "r4" (.num 4), rwRec "r5" (.num 5)] crThrow []).1 =
      [pwRec "id1" (rwRec "r1" (.num 1)), pwRec "id2" (rwRec "r2" (.num 2)),
       pwRec "id4" (rwRec "r4" (.num 4)), pwRec "id5" (rwRec "r5" (.num 5))] ∧
    (processData envW idsW 0 "s"
        [rwRec "r1" (.num 1), rwRec "r2" (.num 2), rwRec "r3" (.str "x"),
         rwRec "r4" (.num 4), rwRec "r5" (.num 5)] crThrow []).2.errors =
      [{ recordId := "r3", error := "Invalid regular expression",
         timestamp := 0 }] ∧
    (processData envW idsW 0 "s"
        [rwRec "r1" (.num 1), rwRec "r2" (.num 2), rwRec "r3" (.str "x"),
         rwRec "r4" (.num 4), rwRec "r5" (.num 5)] crThrow []).2.status =
      "completed" :=
  processData_batch_resilience envW idsW 0 "s" crThrow []
    (rwRec "r1" (.num 1)) (rwRec "r2" (.num 2)) (rwRec "r3" (.str "x"))
    (rwRec "r4" (.num 4)) (rwRec "r5" (.num 5))
    (pwRec "id1" (rwRec "r1" (.num 1))) (pwRec "id2" (rwRec "r2" (.num 2)))
    (pwRec "id4" (rwRec "r4" (.num 4))) (pwRec "id5" (rwRec "r5" (.num 5)))
    "Invalid regular expression" rfl rfl rfl rfl rfl

/-! ## Association-list lookup lemmas for the session map -/

theorem lookup_cons_ite {α : Type} (k a : String) (b : α)
    (rest : List (String × α)) :
    List.lookup k ((a, b) :: rest) =
      if k == a then some b else List.lookup k rest := by
  simp only [List.lookup_cons]
  cases h : k == a <;> simp [h]

theorem lookup_append_left {α : Type} {l1 l2 : List (String × α)} {k : String}
    {v : α} (h : l1.lookup k = some v) : (l1 ++ l2).lookup k = some v := by
  induction l1 with
  | nil => simp [List.lookup] at h
  | cons p rest ih =>
    rcases p with ⟨a, b⟩
    rw [lookup_cons_ite] at h
    rw [List.cons_append, lookup_cons_ite]
    by_cases hka : (k == a) = true
    · rw [if_pos hka] at h
      rw [if_pos hka]
      exact h
    · rw [if_neg hka] at h
      rw [if_neg hka]
      exact ih h

theorem lookup_append_right {α : Type} {l1 l2 : List (String × α)} {k : String}
    (h : l1.lookup k = none) : (l1 ++ l2).lookup k = l2.lookup k := by
  induction l1 with
  | nil => simp
  | cons p rest ih =>
    rcases p with ⟨a, b⟩
    rw [lookup_cons_ite] at h
    rw [List.cons_append, lookup_cons_ite]
    by_cases hka : (k == a) = true
    · rw [if_pos hka] at h
      exact absurd h (by simp)
    · rw [if_neg hka] at h
      rw [if_neg hka]
      exact ih h

theorem lookup_map_update {α : Type} (l : List (String × α)) (k : String)
    (v : α) :
    (l.map fun p => if p.1 == k then (k, v) else p).lookup k =
      if (l.lookup k).isSome then some v else none := by
  induction l with
  | nil => simp [List.lookup]
  | cons p rest ih =>
    rcases p with ⟨a, b⟩
    simp only [List.map_cons]
    by_cases hak : (a == k) = true
    · have hka : (k == a) = true := by
        rw [beq_iff_eq] at hak ⊢
        exact hak.symm
      rw [if_pos hak, lookup_cons_ite, lookup_cons_ite,
        if_pos (show (k == k) = true by simp), if_pos hka]
      simp
    · have hka : ¬ (k == a) = true := by
        rw [beq_iff_eq] at hak ⊢
        exact fun hh => hak hh.symm
      rw [if_neg hak, lookup_cons_ite, lookup_cons_ite, if_neg hka, if_neg hka]
      exact ih

theorem lookup_map_update_ne {α : Type} (l : List (String × α))
    (k k' : String) (v : α) (h : k' ≠ k) :
    (l.map fun p => if p.1 == k then (k, v) else p).lookup k' = l.lookup k' := by
  induction l with
  | nil => simp
  | cons p rest ih =>
    rcases p with ⟨a, b⟩
    simp only [List.map_cons]
    by_cases hak : (a == k) = true
    · have hk'k : ¬ (k' == k) = true := by
        rw [beq_iff_eq]
        exact h
      have hk'a : ¬ (k' == a) = true := by
        rw [beq_iff_eq] at hak ⊢
        rw [hak]
        exact h
      rw [if_pos hak, lookup_cons_ite, lookup_cons_ite, if_neg hk'k,
        if_neg hk'a]
      exact ih
    · rw [if_neg hak, lookup_cons_ite, lookup_cons_ite]
      by_cases hk'a : (k' == a) = true
      · rw [if_pos hk'a, if_pos hk'a]
      · rw [if_neg hk'a, if_neg hk'a]
        exact ih

theorem lookup_setAssoc_self {α : Type} (l : List (String × α)) (k : String)
    (v : α) : (setAssoc l k v).lookup k = some v := by
  unfold setAssoc
  by_cases h : (l.lookup k).isSome
  · rw [if_pos h, lookup_map_update, if_pos h]
  · rw [if_neg h]
    have hnone : l.lookup k = none := by
      cases hl : l.lookup k
      · rfl
      · rw [hl] at h
        simp at h
    rw [lookup_append_right hnone, lookup_cons_ite,
      if_pos (show (k == k) = true by simp)]

theorem lookup_setAssoc_ne {α : Type} (l : List (String × α)) (k k' : String)
    (v : α) (h : k' ≠ k) :
    (setAssoc l k v).lookup k' = l.lookup k' := by
  unfold setAssoc
  by_cases hsome : (l.lookup k).isSome
  · rw [if_pos hsome]
    exact lookup_map_update_ne l k k' v h
  · rw [if_neg hsome]
    cases hl : l.lookup k' with
    | some w => exact lookup_append_left hl
    | none =>
      rw [lookup_append_right hl, lookup_cons_ite,
        if_neg (show ¬ (k' == k) = true by rw [beq_iff_eq]; exact h)]
      rfl

/-! ## C5 — fixed expiry -/

/-- `expireSession` keeps every stored session present and only rewrites
`status`/`updated_at`. -/
theorem lookup_expireSession (m : SessionManager) (now : ℕ)
    (sid' sid : String) (s : ScrapeSession)
    (h : m.sessions.lookup sid = some s) :
    ∃ s', (expireSession m now sid').sessions.lookup sid = some s' ∧
      s'.created_at = s.created_at ∧ s'.expires_at = s.expires_at := by
  unfold expireSession
  cases hL : m.sessions.lookup sid' with
  | none => exact ⟨s, h, rfl, rfl⟩
  | some s0 =>
    by_cases hsid : sid = sid'
    · subst hsid
      rw [hL] at h
      have hs0 : s0 = s := Option.some.inj h
      subst hs0
      exact ⟨{ s0 with status := "expired", updated_at := now },
        lookup_setAssoc_self _ _ _, rfl, rfl⟩
    · refine ⟨s, ?_, rfl, rfl⟩
      rw [lookup_setAssoc_ne _ _ _ _ hsid]
      exact h

/-- `modifySession` with a rewrite that keeps `created_at` and
`expires_at` keeps every stored session present with both unchanged. -/
theorem modifySession_preserves_expiry (m : SessionManager) (now : ℕ)
    (sid' : String) (f : ScrapeSession → ScrapeSession)
    (hf : ∀ x, (f x).created_at = x.created_at ∧ (f x).expires_at = x.expires_at)
    (sid : String) (s : ScrapeSession)
    (h : m.sessions.lookup sid = some s) :
    ∃ s', (modifySession m now sid' f).2.sessions.lookup sid = some s' ∧
      s'.created_at = s.created_at ∧ s'.expires_at = s.expires_at := by
  unfold modifySession getSession
  cases hL : m.sessions.lookup sid' with
  | none => exact ⟨s, h, rfl, rfl⟩
  | some s0 =>
    by_cases hexp : isSessionExpired s0 now
    · simp only [hexp, if_true]
      exact lookup_expireSession m now sid' sid s h
    · simp only [hexp, Bool.false_eq_true, if_false]
      by_cases hsid : sid = sid'
      · subst hsid
        rw [hL] at h
        have hs0 : s0 = s := Option.some.inj h
        subst hs0
        exact ⟨f s0, lookup_setAssoc_self _ _ _, (hf s0).1, (hf s0).2⟩
      · refine ⟨s, ?_, rfl, rfl⟩
        rw [lookup_setAssoc_ne _ _ _ _ hsid]
        exact h

/-- No operation of the registry's mutation surface moves a stored
session's `created_at` or `expires_at`. -/
theorem runOp_preserves_expiry (m : SessionManager) (now : ℕ)
    (op : SessionOp) (sid : String) (s : ScrapeSession)
    (h : m.sessions.lookup sid = some s) :
    ∃ s', (runOp m now op).sessions.lookup sid = some s' ∧
      s'.created_at = s.created_at ∧ s'.expires_at = s.expires_at := by
  cases op with
  | updateConfig sid' cfg =>
    refine modifySession_preserves_expiry m now sid'
      (fun y => { y with configuration := mergeConfig y.configuration cfg,
                         updated_at := now, status := "configuring" })
      (fun x => ⟨rfl, rfl⟩) sid s h
  | updateProg sid' upd mem =>
    refine modifySession_preserves_expiry m now sid'
      (fun y =>
        let prog := { mergeProgress y.progress upd with lastUpdate := now }
        let s1 := { y with progress := prog, updated_at := now }
        match upd.pagesProcessed with
        | some q => if q != 0 then updatePerformanceMetricsOn s1 now mem else s1
        | none => s1) ?_ sid s h
    intro x
    refine ⟨?_, ?_⟩ <;> (split <;> (try split) <;> rfl)
  | setStatus sid' st =>
    refine modifySession_preserves_expiry m now sid'
      (fun y =>
        let s1 := { y with status := st, updated_at := now }
        if st == "completed" || st == "failed" then
          { s1 with metadata := { s1.metadata with
              endTime := some now,
              duration := some ((now : ℤ) - (s1.metadata.startTime : ℤ)) } }
        else s1) ?_ sid s h
    intro x
    refine ⟨?_, ?_⟩ <;> (split <;> rfl)
  | addData sid' d =>
    refine modifySession_preserves_expiry m now sid'
      (fun y =>
        { y with
          data := { y.data with rawData := y.data.rawData ++ [d] },
          progress := { y.progress with
            dataPointsExtracted := y.progress.dataPointsExtracted + 1 },
          updated_at := now })
      (fun x => ⟨rfl, rfl⟩) sid s h
  | recError sid' e fatal =>
    refine modifySession_preserves_expiry m now sid'
      (fun y =>
        let s1 := { y with
          progress := { y.progress with
            errorsEncountered := y.progress.errorsEncountered + 1 },
          updated_at := now }
        if fatal then
          { s1 with status := "failed",
                    metadata := { s1.metadata with endTime := some now } }
        else s1) ?_ sid s h
    intro x
    refine ⟨?_, ?_⟩ <;> (split <;> rfl)

/-- `created_at`/`expires_at` preservation through any timestamped
operation sequence. -/
theorem runOps_preserves_expiry (ops : List (ℕ × SessionOp)) :
    ∀ (m : SessionManager) (sid : String) (s : ScrapeSession),
      m.sessions.lookup sid = some s →
      ∃ s', (runOps m ops).sessions.lookup sid = some s' ∧
        s'.created_at = s.created_at ∧ s'.expires_at = s.expires_at := by
  induction ops with
  | nil => intro m sid s h; exact ⟨s, h, rfl, rfl⟩
  | cons p rest ih =>
    intro m sid s h
    obtain ⟨s1, h1, hc1, he1⟩ := runOp_preserves_expiry m p.1 p.2 sid s h
    obtain ⟨s2, h2, hc2, he2⟩ := ih (runOp m p.1 p.2) sid s1 h1
    exact ⟨s2, h2, hc2.trans hc1, he2.trans he1⟩

/-- C5: a session created with timeout `T` has `expires_at` fixed at
`created_at + T`; after any interleaving of configuration updates,
progress updates, data appends, status changes and error recordings, the
stored session still carries that deadline, and `getSession` returns
`undefined` at every time strictly past it. -/
theorem getSession_none_after_timeout (m : SessionManager) (now0 : ℕ)
    (sid : String) (userId : Option String) (cfg : PartialSessionConfig)
    (desc : Option String) (tags : List String) (mem : MemoryUsage)
    (s : ScrapeSession) (m1 : SessionManager) (ops : List (ℕ × SessionOp))
    (now : ℕ)
    (hc : createSession m now0 sid userId cfg desc tags mem = (.ok s, m1))
    (hnow : now > now0 + m.sessionTimeout) :
    s.created_at = now0 ∧
    s.expires_at = s.created_at + m.sessionTimeout ∧
    (getSession (runOps m1 ops) now s.id).1 = none := by
  unfold createSession at hc
  by_cases hcap : m.sessions.length ≥ m.maxSessions
  · rw [if_pos hcap] at hc
    exact absurd (congrArg Prod.fst hc) (by simp)
  · rw [if_neg hcap] at hc
    have hs := congrArg Prod.fst hc
    have hm := congrArg Prod.snd hc
    simp only at hs hm
    have hsval := Except.ok.inj hs
    have hid : s.id = sid := by rw [← hsval]
    have hca : s.created_at = now0 := by rw [← hsval]
    have hea : s.expires_at = now0 + m.sessionTimeout := by rw [← hsval]
    refine ⟨hca, by rw [hea, hca], ?_⟩
    have hlook : m1.sessions.lookup sid = some s := by
      rw [← hm, ← hsval]
      exact lookup_setAssoc_self _ _ _
    obtain ⟨s', hl', -, he'⟩ := runOps_preserves_expiry ops m1 sid s hlook
    unfold getSession
    rw [hid, hl']
    have hx : isSessionExpired s' now = true := by
      unfold isSessionExpired
      rw [he', hea]
      simpa using hnow
    simp [hx]

def mEmpty : SessionManager :=
  { sessions := [], maxSessions := 100, sessionTimeout := 1800000 }

def sessDefault : ScrapeSession :=
  { id := "", configuration := {},
    progress := createEmptyProgressTracker 0 memW,
    data := createEmptyDataStore 0,
    metadata := { userAgent := "", startTime := 0, tags := [], version := "",
                  environment := "" },
    created_at := 0, updated_at := 0, expires_at := 0, status := "" }

/-- A session created at time 0 in an empty registry with the default
30-minute timeout, and the resulting registry state. -/
def csW : Except String ScrapeSession × SessionManager :=
  createSession mEmpty 0 "s1" none {} none [] memW

def sWit : ScrapeSession := okOr sessDefault csW.1

/-- C5, witness: the created session carries `expires_at = created_at +
1800000`; after a status change, a config update and a data append it is
still gone from `getSession` at time `1800001`. -/
theorem getSession_none_after_timeout_witness :
    sWit.created_at = 0 ∧
    sWit.expires_at = sWit.created_at + mEmpty.sessionTimeout ∧
    (getSession (runOps csW.2
        [(5, .setStatus "s1" "running"), (10, .updateConfig "s1" {}),
         (20, .addData "s1" (.num 1))]) 1800001 sWit.id).1 = none :=
  getSession_none_after_timeout mEmpty 0 "s1" none {} none [] memW sWit csW.2
    [(5, .setStatus "s1" "running"), (10, .updateConfig "s1" {}),
     (20, .addData "s1" (.num 1))] 1800001 rfl (by decide)

/-! ## C2 — capacity enforcement of `createSession` -/

/-- C2 (amended): `createSession` succeeds exactly when the raw stored
session count — expired-but-unswept entries included — is below
`maxSessions`; on a capacity failure the registry state (and hence the
stored session count) is unchanged. -/
theorem createSession_capacity (m : SessionManager) (now : ℕ) (sid : String)
    (userId : Option String) (cfg : PartialSessionConfig)
    (desc : Option String) (tags : List String) (mem : MemoryUsage) :
    ((createSession m now sid userId cfg desc tags mem).1.isOk ↔
      m.sessions.length < m.maxSessions) ∧
    (m.maxSessions ≤ m.sessions.length →
      (createSession m now sid userId cfg desc tags mem).2 = m) := by
  unfold createSession
  by_cases h : m.sessions.length ≥ m.maxSessions
  · rw [if_pos h]
    refine ⟨?_, fun _ => rfl⟩
    simp only [Except.isOk, Except.toBool, Bool.false_eq_true, false_iff]
    omega
  · rw [if_neg h]
    refine ⟨?_, fun hh => absurd hh (by omega)⟩
    simp only [Except.isOk, Except.toBool, true_iff]
    omega

/-- A registry at capacity 1 whose single stored session (created at time
0 with timeout 5) is already expired at time 10. -/
def mFull : SessionManager :=
  (createSession { sessions := [], maxSessions := 1, sessionTimeout := 5 } 0
    "a" none {} none [] memW).2

/-- C2, counterexample: at time 10 the live-session count of `mFull` (after
lazy-expiry filtering, as the claim counts) is 0, strictly below the
maximum 1 — yet `createSession` still fails with the capacity error,
because the source checks the raw `sessions.size`.  The stored count stays
at 1. -/
theorem createSession_capacity_counterexample :
    liveSessionCount mFull 10 = 0 ∧
    mFull.maxSessions = 1 ∧
    (createSession mFull 10 "b" none {} none [] memW).1 =
      .error "Maximum session limit reached (1)" ∧
    (createSession mFull 10 "b" none {} none [] memW).2.sessions.length = 1 :=
  ⟨rfl, rfl, rfl, rfl⟩

/-- C2, witness: the amended capacity law applied to the full registry. -/
theorem createSession_capacity_witness :
    ((createSession mFull 10 "b" none {} none [] memW).1.isOk ↔
      mFull.sessions.length < mFull.maxSessions) ∧
    (createSession mFull 10 "b" none {} none [] memW).2 = mFull :=
  ⟨(createSession_capacity mFull 10 "b" none {} none [] memW).1,
   (createSession_capacity mFull 10 "b" none {} none [] memW).2 (by decide)⟩

/-! ## C10 — `updateSessionConfig` forces the `configuring` status -/

/-- C10: on any existing, non-expired session — whatever its current
status, `running`, `paused`, `completed` or `failed` included —
`updateSessionConfig` succeeds and stores the session with its status
unconditionally set to `configuring`. -/
theorem updateSessionConfig_forces_configuring (m : SessionManager)
    (now : ℕ) (sid : String) (cfg : PartialSessionConfig) (s : ScrapeSession)
    (hs : m.sessions.lookup sid = some s)
    (hexp : isSessionExpired s now = false) :
    (updateSessionConfig m now sid cfg).1 = .ok () ∧
    (updateSessionConfig m now sid cfg).2.sessions.lookup sid =
      some { s with configuration := mergeConfig s.configuration cfg,
                    updated_at := now, status := "configuring" } := by
  unfold updateSessionConfig modifySession getSession
  rw [hs]
  simp only [hexp, Bool.false_eq_true, if_false]
  refine ⟨by trivial, lookup_setAssoc_self _ _ _⟩

/-- A completed (terminal) session, not yet expired at time 10. -/
def sDone : ScrapeSession := { sWit with status := "completed" }

def mDone : SessionManager :=
  { sessions := [("s1", sDone)], maxSessions := 100,
    sessionTimeout := 1800000 }

/-- C10, witness: a configuration update moves the completed session `s1`
back to the `configuring` status. -/
theorem updateSessionConfig_forces_configuring_witness :
    (updateSessionConfig mDone 10 "s1" {}).1 = .ok () ∧
    (updateSessionConfig mDone 10 "s1" {}).2.sessions.lookup "s1" =
      some { sDone with configuration := mergeConfig sDone.configuration {},
                        updated_at := 10, status := "configuring" } :=
  updateSessionConfig_forces_configuring mDone 10 "s1" {} sDone rfl rfl

end Scrape
